import Mathlib

/-!
# AeroTrack/Testbed: register bus client and parallel display driver

Shallow embedding of `src/accelerometer.c` and `src/lcd.c`.

The C code talks to the hardware only through calls into the Pico SDK and the
C library (`gpio_put`, `spi_write_blocking`, `spi_read_blocking`, `sleep_us`,
`printf`, ...).  Every such call is recorded, in program order, as an `Event`;
a C function becomes a Lean function returning the list of events it issues
(and, where it has one, its result).  Machine integers are `Nat` / `Int`; a
value stored into a `uint8_t` is reduced `% 256`.
-/

namespace Testbed

/-! ## Platform calls -/

/-- One call into the platform layer or the C library. The `spi_inst_t *`
argument of the SPI calls is left out: the program uses the single instance
`spi1`. `gpio_put` records the integer the C code passes as the level (the
program only ever passes 0 or 1). -/
inductive Event where
  | stdio_init_all
  | gpio_init (gpio : Nat)
  | gpio_set_dir (gpio : Nat) (out : Bool)
  | gpio_put (gpio : Nat) (value : Int)
  | gpio_set_function (gpio : Nat) (fn : Nat)
  | spi_init (baudrate : Nat)
  | spi_set_format (data_bits cpol cpha : Nat) (msbFirst : Bool)
  | spi_write_blocking (src : List Nat)
  | spi_read_blocking (repeated_tx_data : Nat) (len : Nat)
  | sleep_us (us : Nat)
  | sleep_ms (ms : Nat)
  | printf (format : String) (args : List Int)
  deriving DecidableEq, Repr

/-- A hardware event is any platform call that touches a line, the bus or the
timer; `printf` (the error report) is the only call that is not. -/
def Event.isHardware : Event → Bool
  | Event.printf _ _ => false
  | _ => true

/-- What one call of `spi_read_blocking` delivers: the bytes clocked into the
destination buffer and the value the call returns. -/
structure SpiReply where
  bytes : List Nat
  ret : Int
  deriving DecidableEq, Repr

/-- The device on the serial bus. `spi_read_blocking` is a platform primitive
whose code is outside the repository, so its behaviour is a parameter: a
function of the calls made so far and of the requested length. -/
abbrev SpiBus := List Event → Nat → SpiReply

/-- Effect of `spi_read_blocking(spi, 0, buf, len)` on the destination buffer:
at most `len` received bytes, each a `uint8_t`, overwrite the front of `buf`. -/
def storeBytes (buf : List Nat) (len : Nat) (bytes : List Nat) : List Nat :=
  let rx := (bytes.take len).map (fun b => b % 256)
  rx ++ buf.drop rx.length

/-! ## accelerometer.c -/

def REG_DEVID : Nat := 0x00
def REG_POWER_CTL : Nat := 0x2D
def REG_DATAX0 : Nat := 0x32
def DEVID : Nat := 0xE5

def cs_pin : Nat := 13
def sck_pin : Nat := 14
def mosi_pin : Nat := 15
def miso_pin : Nat := 12

/-- Value of `GPIO_FUNC_SPI` in the platform headers. -/
def GPIO_FUNC_SPI : Nat := 1

/-- The function `reg_write` of accelerometer.c: the calls it issues. -/
def reg_write (cs reg data : Nat) : List Event :=
  let msg0 := (0x00 ||| reg) % 256
  let msg1 := data % 256
  [Event.gpio_put cs 0, Event.spi_write_blocking [msg0, msg1], Event.gpio_put cs 1]

/-- Result of `reg_read`: the returned `int`, the caller's buffer afterwards
and the calls issued. -/
structure ReadResult where
  ret : Int
  buf : List Nat
  trace : List Event
  deriving DecidableEq, Repr

/-- The function `reg_read` of accelerometer.c. `hist` is the list of calls
made before this one (the bus may depend on it); the `trace` of the result
holds only the calls issued by this invocation. -/
def reg_read (bus : SpiBus) (hist : List Event) (cs reg : Nat) (buf : List Nat)
    (nbytes : Nat) : ReadResult :=
  if nbytes < 1 then
    { ret := -1, buf := buf, trace := [] }
  else
    let mb : Nat := if nbytes = 1 then 0 else 1
    let msg := (0x80 ||| (mb <<< 6) ||| reg) % 256
    let pre := [Event.gpio_put cs 0, Event.spi_write_blocking [msg]]
    let reply := bus (hist ++ pre) nbytes
    { ret := reply.ret
      buf := storeBytes buf nbytes reply.bytes
      trace := pre ++ [Event.spi_read_blocking 0 nbytes, Event.gpio_put cs 1] }

/-- How a C function that may spin forever ends: it returns, or it reaches
`while (true);` and stays there. Either way `trace` is every call it issued. -/
inductive Outcome where
  | returned (trace : List Event)
  | halted (trace : List Event)
  deriving DecidableEq, Repr

def Outcome.trace : Outcome → List Event
  | Outcome.returned t => t
  | Outcome.halted t => t

def ERR_NO_COMM : String := "ERROR: Could not communicate with ADXL343\r\n"
def FMT_HEX : String := "0x%X\r\n"

/-- The calls of `Accel_setup` that come before its first register read. -/
def Accel_setup_init : List Event :=
  [ Event.stdio_init_all,
    Event.gpio_init cs_pin,
    Event.gpio_set_dir cs_pin true,
    Event.gpio_put cs_pin 1,
    Event.spi_init (1000 * 1000),
    Event.spi_set_format 8 1 1 true,
    Event.gpio_set_function sck_pin GPIO_FUNC_SPI,
    Event.gpio_set_function mosi_pin GPIO_FUNC_SPI,
    Event.gpio_set_function miso_pin GPIO_FUNC_SPI ]

/-- The function `Accel_setup` of accelerometer.c. `data` is the content of
the local array `uint8_t data[6]` on entry (it is not initialised). -/
def Accel_setup (bus : SpiBus) (data : List Nat) : Outcome :=
  let t0 := Accel_setup_init
  -- throw-away read
  let r1 := reg_read bus t0 cs_pin REG_DEVID data 1
  let t1 := t0 ++ r1.trace
  -- device id
  let r2 := reg_read bus t1 cs_pin REG_DEVID r1.buf 1
  let t2 := t1 ++ r2.trace
  if r2.buf.headD 0 ≠ DEVID then
    Outcome.halted (t2 ++ [Event.printf ERR_NO_COMM []])
  else
    let r3 := reg_read bus t2 cs_pin REG_POWER_CTL r2.buf 1
    let t3 := t2 ++ r3.trace ++ [Event.printf FMT_HEX [(r3.buf.headD 0 : Nat)]]
    let d0 := (r3.buf.headD 0 ||| (1 <<< 3)) % 256
    let data3 := d0 :: r3.buf.tail
    let t4 := t3 ++ reg_write cs_pin REG_POWER_CTL d0
    let r5 := reg_read bus t4 cs_pin REG_POWER_CTL data3 1
    let t5 := t4 ++ r5.trace ++ [Event.printf FMT_HEX [(r5.buf.headD 0 : Nat)]]
    Outcome.returned (t5 ++ [Event.sleep_ms 2000])

/-- The conversion `(int16_t) v` of an `int` value. -/
def toInt16 (v : Nat) : Int :=
  if v % 65536 < 32768 then (v % 65536 : Nat) else ((v % 65536 : Nat) : Int) - 65536

/-- The integer part of the state written by `Accel_poll`. -/
structure PollResult where
  acc_x : Int
  acc_y : Int
  acc_z : Int
  data : List Nat
  trace : List Event
  deriving DecidableEq, Repr

/-- The function `Accel_poll` of accelerometer.c, up to the raw samples: the
burst read and the three 16-bit conversions. (The floating-point scaling that
follows reads `acc_x`, `acc_y`, `acc_z` and changes none of them.) -/
def Accel_poll (bus : SpiBus) (hist : List Event) (data : List Nat) : PollResult :=
  let r := reg_read bus hist cs_pin REG_DATAX0 data 6
  let d := fun i => r.buf.getD i 0
  { acc_x := toInt16 ((d 1 <<< 8) ||| d 0)
    acc_y := toInt16 ((d 3 <<< 8) ||| d 2)
    acc_z := toInt16 ((d 5 <<< 8) ||| d 4)
    data := r.buf
    trace := r.trace }

/-! ## lcd.h, lcd.c -/

def LCD_ROW : Nat := 4
def LCD_COL : Nat := 20
def LCD_CHAR_HEIGHT : Nat := 8
def LCD_CSTM_CHAR_MEM : Nat := 8

/-- The C type `customChar_t`: an array of `LCD_CHAR_HEIGHT` bytes. -/
structure customChar_t where
  bitPattern : Fin 8 → Nat

def NUM_GPIO_PINS : Nat := 10

def LCD_EN_PULSE_DELAY_US : Nat := 1
def LCD_WRITE_DELAY_US : Nat := 50
def LCD_RTN_HOME_DELAY_US : Nat := 2000

def LCD_RS_COMD : Int := 0
def LCD_RS_DATA : Int := 1

/-! Indices into `gpioPins` (the C enumeration `GpioPins`). -/

def LCD_D0 : Nat := 0
def LCD_D1 : Nat := 1
def LCD_D2 : Nat := 2
def LCD_D3 : Nat := 3
def LCD_D4 : Nat := 4
def LCD_D5 : Nat := 5
def LCD_D6 : Nat := 6
def LCD_D7 : Nat := 7
def LCD_RS : Nat := 8
def LCD_EN : Nat := 9

/-! Command codes (the C enumeration `LcdScreen_Commands`). -/

def LCD_RTN_HOME : Nat := 0x02
def LCD_INIT_4BIT : Nat := 0x28
def LCD_INIT_8BIT : Nat := 0x38
def LCD_DISP_CLEAR : Nat := 0x01
def LCD_DISP_C_ON : Nat := 0b1111
def LCD_DISP_C_OFF : Nat := 0b1100
def LCD_AUTO_R : Nat := 0x06
def LCD_SHIFT_L : Nat := 0x18
def LCD_SHIFT_R : Nat := 0x1C
def LCD_CSTM_CHAR : Nat := 0x40
def LCD_ROW0 : Nat := 0x80
def LCD_ROW1 : Nat := 0xC0
def LCD_ROW2 : Nat := 0x94
def LCD_ROW3 : Nat := 0xD4

/-- The array `gpioPins`, read at index `i`. -/
def gpioPins (i : Nat) : Nat :=
  [0, 1, 2, 3, 21, 20, 19, 18, 17, 16].getD i 0

/-- The conversion of an `int` to `unsigned char`. -/
def toUChar (v : Int) : Nat := (v % 256).toNat

def ERR_COL : String := "Error: LcdScreen_moveCursor col must be in range [0,%d]\n"
def ERR_ROW : String := "Error: LcdScreen_moveCursor row must be in range [0,3]\n"
def ERR_LOCATION : String := "Error: LcdScreen_loadCstmChar location must be in range [0,%d]\n"

/-- The function `gpioSetup` of lcd.c. -/
def gpioSetup : List Event :=
  (List.range NUM_GPIO_PINS).flatMap fun i =>
    [Event.gpio_init (gpioPins i), Event.gpio_set_dir (gpioPins i) true,
     Event.gpio_put (gpioPins i) 0]

/-- The function `pulseEnAndSleepUs` of lcd.c. -/
def pulseEnAndSleepUs (delayInUs : Nat) : List Event :=
  [ Event.gpio_put (gpioPins LCD_EN) 1,
    Event.sleep_us LCD_EN_PULSE_DELAY_US,
    Event.gpio_put (gpioPins LCD_EN) 0,
    Event.sleep_us delayInUs ]

/-- The function `LcdScreen_writeNibble` of lcd.c (the pointer argument is
passed by value). -/
def LcdScreen_writeNibble (nibble : Nat) : List Event :=
  (List.range 4).map fun i =>
    Event.gpio_put (gpioPins (i + 4)) (((nibble >>> i) &&& 0x01 : Nat) : Int)

/-- The function `LcdScreen_writeByte` of lcd.c. The global `isNibbleMode` is
an explicit argument. -/
def LcdScreen_writeByte (isNibbleMode : Bool) (byte : Nat) (rsInt : Int) : List Event :=
  [Event.gpio_put (gpioPins LCD_RS) rsInt]
  ++ (if isNibbleMode then
        LcdScreen_writeNibble ((byte &&& 0xF0) >>> 4)
        ++ pulseEnAndSleepUs LCD_EN_PULSE_DELAY_US
        ++ LcdScreen_writeNibble (byte &&& 0x0F)
      else
        (List.range 8).map fun i =>
          Event.gpio_put (gpioPins i) (((byte >>> i) &&& 0x01 : Nat) : Int))
  ++ (if (byte = LCD_DISP_CLEAR ∨ byte = LCD_RTN_HOME) ∧ rsInt = LCD_RS_COMD then
        pulseEnAndSleepUs LCD_RTN_HOME_DELAY_US
      else
        pulseEnAndSleepUs LCD_WRITE_DELAY_US)

/-- The function `LcdScreen_command` of lcd.c: the `int`-valued command is
passed on as an `unsigned char`. -/
def LcdScreen_command (isNibbleMode : Bool) (command : Int) : List Event :=
  LcdScreen_writeByte isNibbleMode (toUChar command) LCD_RS_COMD

/-- The function `LcdScreen_sendData` of lcd.c. -/
def LcdScreen_sendData (isNibbleMode : Bool) (data : Nat) : List Event :=
  LcdScreen_writeByte isNibbleMode data LCD_RS_DATA

/-- The function `LcdScreen_moveCursor` of lcd.c. -/
def LcdScreen_moveCursor (isNibbleMode : Bool) (row col : Int) : List Event :=
  if col < 0 ∨ col ≥ LCD_COL then
    [Event.printf ERR_COL [LCD_COL]]
  else if row = 0 then
    LcdScreen_command isNibbleMode (LCD_ROW0 + col)
  else if row = 1 then
    LcdScreen_command isNibbleMode (LCD_ROW1 + col)
  else if row = 2 then
    LcdScreen_command isNibbleMode (LCD_ROW2 + col)
  else if row = 3 then
    LcdScreen_command isNibbleMode (LCD_ROW3 + col)
  else
    [Event.printf ERR_ROW []]

/-- The function `LcdScreen_hideCursor` of lcd.c. -/
def LcdScreen_hideCursor (isNibbleMode : Bool) : List Event :=
  LcdScreen_command isNibbleMode LCD_DISP_C_OFF

/-- The function `LcdScreen_showCursor` of lcd.c. -/
def LcdScreen_showCursor (isNibbleMode : Bool) : List Event :=
  LcdScreen_command isNibbleMode LCD_DISP_C_ON

/-- The function `LcdScreen_writeString` of lcd.c. `message i` is the `char`
at `message + i`; it is passed on as an `unsigned char`. -/
def LcdScreen_writeString (isNibbleMode : Bool) (message : Nat → Int) : List Event :=
  (List.range LCD_COL).flatMap fun i =>
    LcdScreen_writeByte isNibbleMode (toUChar (message i)) LCD_RS_DATA

/-- The function `LcdScreen_placeChar` of lcd.c. -/
def LcdScreen_placeChar (isNibbleMode : Bool) (row col : Int) (data : Nat) : List Event :=
  LcdScreen_moveCursor isNibbleMode row col
  ++ LcdScreen_sendData isNibbleMode data

/-- The function `LcdScreen_loadCstmChar` of lcd.c. -/
def LcdScreen_loadCstmChar (isNibbleMode : Bool) (location : Int)
    (customChar : customChar_t) : List Event :=
  if location < 0 ∨ location ≥ LCD_CSTM_CHAR_MEM then
    [Event.printf ERR_LOCATION [LCD_CSTM_CHAR_MEM]]
  else
    LcdScreen_writeByte isNibbleMode (toUChar (LCD_CSTM_CHAR + 8 * location)) LCD_RS_COMD
    ++ (List.finRange 8).flatMap fun i =>
         LcdScreen_writeByte isNibbleMode (customChar.bitPattern i) LCD_RS_DATA

/-- The function `LcdScreen_setup` of lcd.c: the new value of the global
`isNibbleMode` and the calls issued. -/
def LcdScreen_setup (isNibbleModeIn : Bool) : Bool × List Event :=
  let isNibbleMode := isNibbleModeIn
  (isNibbleMode,
    gpioSetup
    ++ (if isNibbleMode then
          LcdScreen_command isNibbleMode LCD_RTN_HOME
          ++ LcdScreen_command isNibbleMode LCD_INIT_4BIT
        else
          LcdScreen_command isNibbleMode LCD_INIT_8BIT)
    ++ LcdScreen_command isNibbleMode LCD_DISP_CLEAR
    ++ LcdScreen_command isNibbleMode LCD_DISP_C_ON
    ++ LcdScreen_command isNibbleMode LCD_AUTO_R)

/-- The function `LcdScreen_clear` of lcd.c. -/
def LcdScreen_clear (isNibbleMode : Bool) : List Event :=
  LcdScreen_command isNibbleMode LCD_DISP_CLEAR

/-! ## Observers used to state the properties -/

/-- The hardware events of a trace. -/
def hardwareEvents (tr : List Event) : List Event :=
  tr.filter Event.isHardware

/-- The header of a register transaction: the first byte of the first bus
write in the trace. -/
def headerByte : List Event → Option Nat
  | [] => none
  | Event.spi_write_blocking (b :: _) :: _ => some b
  | _ :: rest => headerByte rest

/-- The four calls of one register read transaction on chip-select `cs`. -/
def readTransaction (cs header count : Nat) : List Event :=
  [ Event.gpio_put cs 0, Event.spi_write_blocking [header],
    Event.spi_read_blocking 0 count, Event.gpio_put cs 1 ]

/-- The calls made in `Accel_setup` up to the moment the identity read (its
second read of register 0x00) clocks its byte in. -/
def identityReadHist : List Event :=
  Accel_setup_init ++ readTransaction cs_pin 0x80 1
  ++ [Event.gpio_put cs_pin 0, Event.spi_write_blocking [0x80]]

/-- The value of `data[0]` that `Accel_setup` compares with `DEVID`: the
buffer after the throw-away read and the identity read. -/
def identityByte (bus : SpiBus) (data : List Nat) : Nat :=
  let r1 := reg_read bus Accel_setup_init cs_pin REG_DEVID data 1
  let r2 := reg_read bus (Accel_setup_init ++ r1.trace) cs_pin REG_DEVID r1.buf 1
  r2.buf.headD 0

/-- The base command code of a display row. -/
def rowBase (row : Int) : Nat :=
  if row = 0 then 0x80 else if row = 1 then 0xC0 else if row = 2 then 0x94 else 0xD4

/-- The four writes that put the 4-bit value `n` on the nibble data lines
`LCD_D4 .. LCD_D7`, least significant bit first. -/
def nibbleLines (n : Nat) : List Event :=
  [ Event.gpio_put (gpioPins LCD_D4) ((n % 2 : Nat) : Int),
    Event.gpio_put (gpioPins LCD_D5) ((n / 2 % 2 : Nat) : Int),
    Event.gpio_put (gpioPins LCD_D6) ((n / 4 % 2 : Nat) : Int),
    Event.gpio_put (gpioPins LCD_D7) ((n / 8 % 2 : Nat) : Int) ]

/-- The number carried by a run of line writes, the first write being the
least significant bit. -/
def linesValue : List Event → Int
  | Event.gpio_put _ v :: rest => v + 2 * linesValue rest
  | _ => 0

/-- One enable pulse followed by a wait of `d` microseconds. -/
def enablePulse (d : Nat) : List Event :=
  [ Event.gpio_put (gpioPins LCD_EN) 1, Event.sleep_us 1,
    Event.gpio_put (gpioPins LCD_EN) 0, Event.sleep_us d ]

/-- The settle delay of a byte transfer: the wait that ends its trace. -/
def settleDelay (tr : List Event) : Option Nat :=
  match tr.getLast? with
  | some (Event.sleep_us d) => some d
  | _ => none

/-- The two's-complement reading of a 16-bit value. -/
def s16 (v : Nat) : Int :=
  if v < 32768 then (v : Int) else (v : Int) - 65536

/-- The eight writes that put the byte `b` on the data lines
`LCD_D0 .. LCD_D7`, bit `i` on line `i`. -/
def byteLines (b : Nat) : List Event :=
  [ Event.gpio_put (gpioPins LCD_D0) ((b % 2 : Nat) : Int),
    Event.gpio_put (gpioPins LCD_D1) ((b / 2 % 2 : Nat) : Int),
    Event.gpio_put (gpioPins LCD_D2) ((b / 4 % 2 : Nat) : Int),
    Event.gpio_put (gpioPins LCD_D3) ((b / 8 % 2 : Nat) : Int),
    Event.gpio_put (gpioPins LCD_D4) ((b / 16 % 2 : Nat) : Int),
    Event.gpio_put (gpioPins LCD_D5) ((b / 32 % 2 : Nat) : Int),
    Event.gpio_put (gpioPins LCD_D6) ((b / 64 % 2 : Nat) : Int),
    Event.gpio_put (gpioPins LCD_D7) ((b / 128 % 2 : Nat) : Int) ]

/-- The lines a trace writes: the pin of every `gpio_put`, in order. -/
def linesWritten : List Event → List Nat
  | [] => []
  | Event.gpio_put p _ :: rest => p :: linesWritten rest
  | _ :: rest => linesWritten rest

/-- The levels a trace writes to the line `pin`, in order. -/
def lineWrites (pin : Nat) : List Event → List Int
  | [] => []
  | Event.gpio_put p v :: rest =>
      if p = pin then v :: lineWrites pin rest else lineWrites pin rest
  | _ :: rest => lineWrites pin rest

/-- The register writes of a trace: the frames of its 2-byte bus writes. -/
def registerWrites : List Event → List (Nat × Nat)
  | [] => []
  | Event.spi_write_blocking [a, d] :: rest => (a, d) :: registerWrites rest
  | _ :: rest => registerWrites rest

/-- The calls made in `Accel_setup`, once the identity check has passed, up
to the moment the first read of the power-control register clocks its byte
in. -/
def powerCtlReadHist : List Event :=
  Accel_setup_init ++ readTransaction cs_pin 0x80 1 ++ readTransaction cs_pin 0x80 1
  ++ [Event.gpio_put cs_pin 0, Event.spi_write_blocking [0xAD]]

/-- The value of `data[0]` after the first read of the power-control register
in `Accel_setup`. -/
def powerCtlByte (bus : SpiBus) (data : List Nat) : Nat :=
  let r1 := reg_read bus Accel_setup_init cs_pin REG_DEVID data 1
  let t1 := Accel_setup_init ++ r1.trace
  let r2 := reg_read bus t1 cs_pin REG_DEVID r1.buf 1
  let t2 := t1 ++ r2.trace
  let r3 := reg_read bus t2 cs_pin REG_POWER_CTL r2.buf 1
  r3.buf.headD 0

/-! ## accelerometer.h, accelerometer.c: orientation -/

/-- The C type `Angle`, with a number type `α` in the place of `double`. -/
structure Angle (α : Type) where
  r : α
  theta : α
  alpha : α

/-- The part of the C mathematics library that `cal_Angle` calls. It is
outside the repository, so it is a parameter of the embedding. -/
structure CMath (α : Type) where
  sqrt : α → α
  atan2 : α → α → α
  M_PI : α

/-- The function `cal_Angle` of accelerometer.c, over any number type. -/
def cal_Angle {α : Type} [Add α] [Mul α] [Div α] [OfNat α 180] (m : CMath α)
    (x y z : α) : Angle α :=
  let sum_r := x * x + y * y + z * z
  { r := m.sqrt sum_r
    theta := m.atan2 x (m.sqrt (z * z + y * y)) * 180 / m.M_PI
    alpha := m.atan2 y z * 180 / m.M_PI }

/-- The two-argument arctangent on the real numbers: the angle in `(-π, π]`
of the point `(x, y)`, and 0 at the origin. -/
noncomputable def realAtan2 (y x : ℝ) : ℝ :=
  if 0 < x then Real.arctan (y / x)
  else if x < 0 then
    (if 0 ≤ y then Real.arctan (y / x) + Real.pi else Real.arctan (y / x) - Real.pi)
  else if 0 < y then Real.pi / 2
  else if y < 0 then -(Real.pi / 2)
  else 0

/-- The mathematics library over the real numbers. -/
noncomputable def realMath : CMath ℝ :=
  { sqrt := Real.sqrt, atan2 := realAtan2, M_PI := Real.pi }

/-! ## Register bus client: header and frame -/

/-- The header byte fits in a `uint8_t`, so storing it loses nothing. -/
theorem header_lt_256 (mb reg : Nat) (hmb : mb ≤ 1) (hreg : reg < 256) :
    0x80 ||| (mb <<< 6) ||| reg < 256 := by
  have h1 : (0x80 : Nat) < 2 ^ 8 := by norm_num
  have h2 : mb <<< 6 < 2 ^ 8 := by
    interval_cases mb <;> decide
  have h3 : reg < 2 ^ 8 := by simpa using hreg
  have := Nat.or_lt_two_pow (Nat.or_lt_two_pow h1 h2) h3
  simpa using this

/-- A read of at least one byte issues the four calls of a transaction. -/
theorem reg_read_unfold (bus : SpiBus) (hist : List Event) (cs reg : Nat) (buf : List Nat)
    (nbytes : Nat) (h : 1 ≤ nbytes) :
    reg_read bus hist cs reg buf nbytes =
      { ret := (bus (hist ++ [Event.gpio_put cs 0, Event.spi_write_blocking
                  [(0x80 ||| ((if nbytes = 1 then 0 else 1) <<< 6) ||| reg) % 256]]) nbytes).ret
        buf := storeBytes buf nbytes
                (bus (hist ++ [Event.gpio_put cs 0, Event.spi_write_blocking
                  [(0x80 ||| ((if nbytes = 1 then 0 else 1) <<< 6) ||| reg) % 256]]) nbytes).bytes
        trace := [Event.gpio_put cs 0,
                  Event.spi_write_blocking
                    [(0x80 ||| ((if nbytes = 1 then 0 else 1) <<< 6) ||| reg) % 256],
                  Event.spi_read_blocking 0 nbytes,
                  Event.gpio_put cs 1] } := by
  have h' : ¬ nbytes < 1 := by omega
  simp [reg_read, h']

/-- Bit 6 of the header of a read of at least one byte. -/
theorem reg_read_header_bit6 (bus : SpiBus) (hist : List Event) (cs reg : Nat)
    (buf : List Nat) (nbytes : Nat) (h : 1 ≤ nbytes) :
    ∃ hd, headerByte (reg_read bus hist cs reg buf nbytes).trace = some hd ∧
      hd.testBit 6 = (decide (2 ≤ nbytes) || reg.testBit 6) := by
  refine ⟨_, by rw [reg_read_unfold bus hist cs reg buf nbytes h]; rfl, ?_⟩
  have e : (256 : Nat) = 2 ^ 8 := by norm_num
  rw [e, Nat.testBit_mod_two_pow, Nat.testBit_or, Nat.testBit_or]
  have b128 : Nat.testBit 128 6 = false := by decide
  have b64 : Nat.testBit 64 6 = true := by decide
  by_cases h1 : nbytes = 1
  · subst h1; simp [b128]
  · have h2 : 2 ≤ nbytes := by omega
    simp [h1, h2, b64]

/-- C1 (as stated, refuted): address 0x40 fits in 7 bits, the byte count is 1,
and the header byte that `reg_read` sends is 0xC0, whose bit 6 is 1. -/
theorem reg_read_multi_byte_bit_counterexample :
    (0x40 : Nat) < 2 ^ 7 ∧
    headerByte (reg_read (fun _ _ => { bytes := [0], ret := 1 }) [] 13 0x40 [0] 1).trace
      = some 0xC0 ∧
    Nat.testBit 0xC0 6 = true := by
  refine ⟨by decide, by rfl, by decide⟩

/-- C1 (amended): for every register address and byte count, the header byte
sent by `reg_read` has bit 6 equal to 1 when the count is at least 2; when the
count is 1 its bit 6 is bit 6 of the address, hence 0 for every address that
fits in 6 bits; when the count is below 1 the call returns -1, issues no call
at all and leaves the buffer as it was. -/
theorem reg_read_multi_byte_bit (bus : SpiBus) (hist : List Event) (cs reg : Nat)
    (buf : List Nat) (nbytes : Nat) :
    (2 ≤ nbytes → ∃ hd, headerByte (reg_read bus hist cs reg buf nbytes).trace = some hd ∧
        hd.testBit 6 = true) ∧
    (nbytes = 1 → ∃ hd, headerByte (reg_read bus hist cs reg buf nbytes).trace = some hd ∧
        hd.testBit 6 = reg.testBit 6) ∧
    (nbytes = 1 → reg < 2 ^ 6 →
      ∃ hd, headerByte (reg_read bus hist cs reg buf nbytes).trace = some hd ∧
        hd.testBit 6 = false) ∧
    (nbytes < 1 → reg_read bus hist cs reg buf nbytes = { ret := -1, buf := buf, trace := [] }) := by
  refine ⟨fun h => ?_, fun h => ?_, fun h hr => ?_, fun h => ?_⟩
  · obtain ⟨hd, h1, h2⟩ := reg_read_header_bit6 bus hist cs reg buf nbytes (by omega)
    exact ⟨hd, h1, by simp [h2, h]⟩
  · obtain ⟨hd, h1, h2⟩ := reg_read_header_bit6 bus hist cs reg buf nbytes (by omega)
    exact ⟨hd, h1, by simp [h2, h]⟩
  · obtain ⟨hd, h1, h2⟩ := reg_read_header_bit6 bus hist cs reg buf nbytes (by omega)
    exact ⟨hd, h1, by simp [h2, h, Nat.testBit_lt_two_pow hr]⟩
  · simp [reg_read, h]

/-- C1 (amended), at concrete inputs: a 6-byte read of 0x32, a 1-byte read of
0x2D, and a 0-byte read. -/
theorem reg_read_multi_byte_bit_witness :
    (∃ hd, headerByte (reg_read (fun _ _ => { bytes := [1, 2, 3, 4, 5, 6], ret := 6 }) []
        13 0x32 [0, 0, 0, 0, 0, 0] 6).trace = some hd ∧ hd.testBit 6 = true) ∧
    (∃ hd, headerByte (reg_read (fun _ _ => { bytes := [8], ret := 1 }) []
        13 0x2D [0, 0, 0, 0, 0, 0] 1).trace = some hd ∧ hd.testBit 6 = false) ∧
    reg_read (fun _ _ => { bytes := [8], ret := 1 }) [] 13 0x2D [7] 0
      = { ret := -1, buf := [7], trace := [] } :=
  ⟨(reg_read_multi_byte_bit _ [] 13 0x32 [0, 0, 0, 0, 0, 0] 6).1 (by decide),
   (reg_read_multi_byte_bit _ [] 13 0x2D [0, 0, 0, 0, 0, 0] 1).2.2.1 rfl (by decide),
   (reg_read_multi_byte_bit _ [] 13 0x2D [7] 0).2.2.2 (by decide)⟩

/-- C2: for every address that fits in 6 bits and every count of at least 1,
`reg_read` issues exactly chip-select low, a bus write of the single header
byte `0x80 | (mb << 6) | address` with `mb = 1` iff `count > 1`, a bus read of
exactly `count` bytes, chip-select high; and it returns what the bus read
primitive returned. -/
theorem reg_read_transaction (bus : SpiBus) (hist : List Event) (cs reg : Nat)
    (buf : List Nat) (nbytes : Nat) (hreg : reg < 2 ^ 6) (hn : 1 ≤ nbytes) :
    ∃ mb : Nat, (mb = 1 ↔ nbytes > 1) ∧ (mb = 0 ∨ mb = 1) ∧
      (reg_read bus hist cs reg buf nbytes).trace =
        [ Event.gpio_put cs 0,
          Event.spi_write_blocking [0x80 ||| (mb <<< 6) ||| reg],
          Event.spi_read_blocking 0 nbytes,
          Event.gpio_put cs 1 ] ∧
      (reg_read bus hist cs reg buf nbytes).ret =
        (bus (hist ++ [Event.gpio_put cs 0,
                       Event.spi_write_blocking [0x80 ||| (mb <<< 6) ||| reg]]) nbytes).ret := by
  have hreg' : reg < 256 := by
    have : (2 : Nat) ^ 6 = 64 := by norm_num
    omega
  refine ⟨if nbytes = 1 then 0 else 1, ?_, ?_, ?_, ?_⟩
  · by_cases h1 : nbytes = 1
    · simp [h1]
    · simp [h1]; omega
  · by_cases h1 : nbytes = 1 <;> simp [h1]
  · have hlt := header_lt_256 (if nbytes = 1 then 0 else 1) reg (by split <;> omega) hreg'
    rw [reg_read_unfold bus hist cs reg buf nbytes hn, Nat.mod_eq_of_lt hlt]
  · have hlt := header_lt_256 (if nbytes = 1 then 0 else 1) reg (by split <;> omega) hreg'
    rw [reg_read_unfold bus hist cs reg buf nbytes hn, Nat.mod_eq_of_lt hlt]

/-- C2 at a concrete input: the 6-byte burst read of register 0x32. -/
theorem reg_read_transaction_witness :
    ∃ mb : Nat, (mb = 1 ↔ 6 > 1) ∧ (mb = 0 ∨ mb = 1) ∧
      (reg_read (fun _ n => { bytes := List.replicate n 0, ret := n }) [] 13 0x32
          [0, 0, 0, 0, 0, 0] 6).trace =
        [ Event.gpio_put 13 0,
          Event.spi_write_blocking [0x80 ||| (mb <<< 6) ||| 0x32],
          Event.spi_read_blocking 0 6,
          Event.gpio_put 13 1 ] ∧
      (reg_read (fun _ n => { bytes := List.replicate n 0, ret := n }) [] 13 0x32
          [0, 0, 0, 0, 0, 0] 6).ret =
        ((fun _ n => { bytes := List.replicate n 0, ret := n } : SpiBus)
          ([] ++ [Event.gpio_put 13 0,
                  Event.spi_write_blocking [0x80 ||| (mb <<< 6) ||| 0x32]]) 6).ret :=
  reg_read_transaction _ [] 13 0x32 [0, 0, 0, 0, 0, 0] 6 (by decide) (by decide)

/-- C3: for every address that fits in 6 bits and every data byte, `reg_write`
issues exactly chip-select low, a bus write of the 2-byte frame
`[0x00 | address, byte]`, chip-select high; the first frame byte has bit 7 and
bit 6 both 0 and its low 6 bits are the address. -/
theorem reg_write_frame (cs reg data : Nat) (hreg : reg < 2 ^ 6) (hdata : data < 256) :
    reg_write cs reg data =
      [ Event.gpio_put cs 0,
        Event.spi_write_blocking [0x00 ||| reg, data],
        Event.gpio_put cs 1 ] ∧
    (0x00 ||| reg).testBit 7 = false ∧
    (0x00 ||| reg).testBit 6 = false ∧
    (0x00 ||| reg) % 2 ^ 6 = reg := by
  have h64 : (2 : Nat) ^ 6 = 64 := by norm_num
  have hz : 0x00 ||| reg = reg := by simp
  refine ⟨?_, ?_, ?_, ?_⟩
  · simp only [reg_write, hz]
    rw [Nat.mod_eq_of_lt (by omega : reg < 256), Nat.mod_eq_of_lt hdata]
  · rw [hz]; exact Nat.testBit_lt_two_pow (by omega)
  · rw [hz]; exact Nat.testBit_lt_two_pow hreg
  · rw [hz]; exact Nat.mod_eq_of_lt hreg

/-- C3 at a concrete input: writing 0x08 to the power-control register. -/
theorem reg_write_frame_witness :
    reg_write 13 0x2D 0x08 =
      [ Event.gpio_put 13 0,
        Event.spi_write_blocking [0x00 ||| 0x2D, 0x08],
        Event.gpio_put 13 1 ] ∧
    (0x00 ||| 0x2D).testBit 7 = false ∧
    (0x00 ||| 0x2D).testBit 6 = false ∧
    (0x00 ||| 0x2D) % 2 ^ 6 = 0x2D :=
  reg_write_frame 13 0x2D 0x08 (by decide) (by decide)

/-! ## Parallel display driver -/

/-- An `int` in the range of `unsigned char` converts to itself. -/
theorem toUChar_of_range (v : Int) (h0 : 0 ≤ v) (h1 : v < 256) : toUChar v = v.toNat := by
  unfold toUChar
  rw [Int.emod_eq_of_lt h0 h1]

/-- A byte transfer consists of hardware events only. -/
theorem hardwareEvents_writeByte (nib : Bool) (byte : Nat) (rsInt : Int) :
    hardwareEvents (LcdScreen_writeByte nib byte rsInt) = LcdScreen_writeByte nib byte rsInt := by
  unfold hardwareEvents
  rw [List.filter_eq_self]
  intro e he
  simp only [LcdScreen_writeByte, LcdScreen_writeNibble, pulseEnAndSleepUs, List.mem_append,
    List.mem_map, List.mem_cons, List.mem_singleton, List.mem_range] at he
  rcases he with (he | he) | he
  · rcases he with rfl | he
    · rfl
    · cases he
  · split at he
    · simp only [List.mem_append, List.mem_map, List.mem_cons, List.mem_range] at he
      rcases he with (⟨_, _, rfl⟩ | he) | ⟨_, _, rfl⟩
      · rfl
      · rcases he with rfl | rfl | rfl | rfl | he
        · rfl
        · rfl
        · rfl
        · rfl
        · cases he
      · rfl
    · simp only [List.mem_map, List.mem_range] at he
      obtain ⟨_, _, rfl⟩ := he
      rfl
  · split at he
    all_goals
      simp only [List.mem_cons] at he
      rcases he with rfl | rfl | rfl | rfl | he
      · rfl
      · rfl
      · rfl
      · rfl
      · cases he

/-- C4: for every row in 0..3 and every column in 0..19, `LcdScreen_moveCursor`
issues exactly one byte transfer, to the command register, of the byte
`base(row) + col` with base 0x80, 0xC0, 0x94, 0xD4; for every other position
it issues no hardware event at all. -/
theorem LcdScreen_moveCursor_command (nib : Bool) (row col : Int) :
    ((row = 0 ∨ row = 1 ∨ row = 2 ∨ row = 3) → 0 ≤ col → col < 20 →
      LcdScreen_moveCursor nib row col
        = LcdScreen_writeByte nib (rowBase row + col.toNat) LCD_RS_COMD) ∧
    (¬ (row = 0 ∨ row = 1 ∨ row = 2 ∨ row = 3) ∨ col < 0 ∨ 20 ≤ col →
      hardwareEvents (LcdScreen_moveCursor nib row col) = []) := by
  constructor
  · intro hrow h0 h1
    have hcol : ¬ (col < 0 ∨ col ≥ (LCD_COL : Nat)) := by
      simp only [LCD_COL]; push_cast; omega
    have conv : ∀ base : Nat, base + 20 ≤ 256 →
        toUChar ((base : Int) + col) = base + col.toNat := by
      intro base hb
      rw [toUChar_of_range _ (by omega) (by omega)]
      omega
    rcases hrow with rfl | rfl | rfl | rfl
    · simp only [LcdScreen_moveCursor, if_neg hcol, LcdScreen_command, LCD_ROW0]
      rw [conv 0x80 (by norm_num)]; rfl
    · simp only [LcdScreen_moveCursor, if_neg hcol, LcdScreen_command, LCD_ROW1]
      rw [conv 0xC0 (by norm_num)]; rfl
    · simp only [LcdScreen_moveCursor, if_neg hcol, LcdScreen_command, LCD_ROW2]
      rw [conv 0x94 (by norm_num)]; rfl
    · simp only [LcdScreen_moveCursor, if_neg hcol, LcdScreen_command, LCD_ROW3]
      rw [conv 0xD4 (by norm_num)]; rfl
  · intro h
    unfold LcdScreen_moveCursor
    by_cases hcol : col < 0 ∨ col ≥ (LCD_COL : Nat)
    · rw [if_pos hcol]; rfl
    · rw [if_neg hcol]
      have hc : ¬ (col < 0 ∨ 20 ≤ col) := by
        simpa [LCD_COL] using hcol
      have hrow : ¬ (row = 0 ∨ row = 1 ∨ row = 2 ∨ row = 3) := by
        rcases h with h | h
        · exact h
        · exact absurd h hc
      simp only [not_or] at hrow
      rw [if_neg hrow.1, if_neg hrow.2.1, if_neg hrow.2.2.1, if_neg hrow.2.2.2]
      rfl

/-- C4 at concrete inputs: row 2, column 5 (command 0x99), and the invalid
positions row 4 and column 20. -/
theorem LcdScreen_moveCursor_command_witness :
    LcdScreen_moveCursor true 2 5 = LcdScreen_writeByte true 0x99 LCD_RS_COMD ∧
    hardwareEvents (LcdScreen_moveCursor true 4 5) = [] ∧
    hardwareEvents (LcdScreen_moveCursor true 2 20) = [] :=
  ⟨(LcdScreen_moveCursor_command true 2 5).1 (by decide) (by decide) (by decide),
   (LcdScreen_moveCursor_command true 4 5).2 (Or.inl (by decide)),
   (LcdScreen_moveCursor_command true 2 20).2 (Or.inr (Or.inr (by decide)))⟩

/-- C5 (the code at the failing input): with row 4, which is out of range,
`LcdScreen_placeChar` still transfers the data byte: its hardware events are
those of the data write of 0x41, a list that starts with the register-select
write and is not empty. -/
theorem LcdScreen_placeChar_invalid_row_writes :
    hardwareEvents (LcdScreen_placeChar true 4 0 0x41)
      = LcdScreen_writeByte true 0x41 LCD_RS_DATA ∧
    hardwareEvents (LcdScreen_placeChar true 4 0 0x41) ≠ [] ∧
    (hardwareEvents (LcdScreen_placeChar true 4 0 0x41)).head?
      = some (Event.gpio_put (gpioPins LCD_RS) 1) := by
  refine ⟨?_, ?_, ?_⟩
  · decide
  · decide
  · decide

/-- The bit written to line `i` is bit `i` of the value. -/
theorem shift_and_one (n i : Nat) : (n >>> i) &&& 0x01 = n / 2 ^ i % 2 := by
  rw [Nat.shiftRight_eq_div_pow, Nat.and_one_is_mod]

/-- The four line writes of `LcdScreen_writeNibble`. -/
theorem writeNibble_eq (n : Nat) : LcdScreen_writeNibble n = nibbleLines n := by
  have hr : List.range 4 = [0, 1, 2, 3] := by decide
  simp only [LcdScreen_writeNibble, hr, List.map, shift_and_one, nibbleLines,
    LCD_D4, LCD_D5, LCD_D6, LCD_D7]
  norm_num

/-- The high nibble of a byte. -/
theorem high_nibble (b : Nat) (hb : b < 256) : (b &&& 0xF0) >>> 4 = b / 16 := by
  interval_cases b <;> rfl

/-- The low nibble of a byte. -/
theorem low_nibble (b : Nat) : b &&& 0x0F = b % 16 :=
  Nat.and_pow_two_sub_one_eq_mod b 4

/-- Four line writes carry the 4-bit value they were made from. -/
theorem linesValue_nibbleLines (n : Nat) (hn : n < 16) : linesValue (nibbleLines n) = n := by
  simp only [nibbleLines, linesValue]
  omega

/-- C6: in nibble mode, for every byte and every target, `LcdScreen_writeByte`
writes register-select, then the high nibble `b >> 4` bit by bit on the four
nibble lines and an enable pulse, then the low nibble `b & 0x0F` on the same
lines and a second enable pulse; the two values carried satisfy
`16 * first + second = b`; the byte 0xA5 sent as data carries 0xA then 0x5. -/
theorem LcdScreen_writeByte_nibble (byte : Nat) (rsInt : Int) (hb : byte < 256) :
    LcdScreen_writeByte true byte rsInt =
      [Event.gpio_put (gpioPins LCD_RS) rsInt]
      ++ nibbleLines (byte >>> 4) ++ enablePulse 1
      ++ nibbleLines (byte &&& 0x0F)
      ++ enablePulse (if (byte = 0x01 ∨ byte = 0x02) ∧ rsInt = 0 then 2000 else 50) ∧
    linesValue (nibbleLines (byte >>> 4)) = (byte >>> 4 : Nat) ∧
    linesValue (nibbleLines (byte &&& 0x0F)) = (byte &&& 0x0F : Nat) ∧
    16 * (byte >>> 4) + (byte &&& 0x0F) = byte ∧
    LcdScreen_writeByte true 0xA5 LCD_RS_DATA =
      [Event.gpio_put (gpioPins LCD_RS) 1]
      ++ nibbleLines 0xA ++ enablePulse 1 ++ nibbleLines 0x5 ++ enablePulse 50 := by
  have hhi : byte >>> 4 = byte / 16 := by rw [Nat.shiftRight_eq_div_pow]
  refine ⟨?_, ?_, ?_, ?_, ?_⟩
  · simp only [LcdScreen_writeByte, if_true, writeNibble_eq, high_nibble byte hb, low_nibble,
      hhi, pulseEnAndSleepUs, enablePulse, LCD_EN_PULSE_DELAY_US, LCD_DISP_CLEAR, LCD_RTN_HOME,
      LCD_RS_COMD, LCD_RTN_HOME_DELAY_US, LCD_WRITE_DELAY_US]
    split <;> simp only [List.append_assoc]
  · rw [hhi]; exact linesValue_nibbleLines _ (by omega)
  · rw [low_nibble]; exact linesValue_nibbleLines _ (by omega)
  · rw [hhi, low_nibble]; omega
  · decide

/-- C6 at a concrete input: the byte 0xA5 sent as data. -/
theorem LcdScreen_writeByte_nibble_witness :
    LcdScreen_writeByte true 0xA5 1 =
      [ Event.gpio_put 17 1,
        Event.gpio_put 21 0, Event.gpio_put 20 1, Event.gpio_put 19 0, Event.gpio_put 18 1,
        Event.gpio_put 16 1, Event.sleep_us 1, Event.gpio_put 16 0, Event.sleep_us 1,
        Event.gpio_put 21 1, Event.gpio_put 20 0, Event.gpio_put 19 1, Event.gpio_put 18 0,
        Event.gpio_put 16 1, Event.sleep_us 1, Event.gpio_put 16 0, Event.sleep_us 50 ] ∧
    linesValue (nibbleLines (0xA5 >>> 4)) = 0xA ∧
    linesValue (nibbleLines (0xA5 &&& 0x0F)) = 0x5 := by
  have h := LcdScreen_writeByte_nibble 0xA5 1 (by decide)
  refine ⟨?_, ?_, ?_⟩
  · rw [h.1]; decide
  · rw [h.2.1]; decide
  · rw [h.2.2.1]; decide

/-- Every byte transfer ends with an enable pulse followed by its settle
delay. -/
theorem writeByte_ends_with_pulse (nib : Bool) (byte : Nat) (rsInt : Int) :
    ∃ pre, LcdScreen_writeByte nib byte rsInt =
      pre ++ enablePulse
        (if (byte = 0x01 ∨ byte = 0x02) ∧ rsInt = LCD_RS_COMD then 2000 else 50) := by
  refine ⟨[Event.gpio_put (gpioPins LCD_RS) rsInt]
      ++ (if nib then
            LcdScreen_writeNibble ((byte &&& 0xF0) >>> 4)
            ++ pulseEnAndSleepUs LCD_EN_PULSE_DELAY_US
            ++ LcdScreen_writeNibble (byte &&& 0x0F)
          else
            (List.range 8).map fun i =>
              Event.gpio_put (gpioPins i) (((byte >>> i) &&& 0x01 : Nat) : Int)), ?_⟩
  unfold LcdScreen_writeByte
  congr 1
  simp only [pulseEnAndSleepUs, enablePulse, LCD_EN_PULSE_DELAY_US, LCD_DISP_CLEAR,
    LCD_RTN_HOME, LCD_RTN_HOME_DELAY_US, LCD_WRITE_DELAY_US]
  split <;> rfl

/-- The settle delay of a trace that ends with an enable pulse. -/
theorem settleDelay_append_pulse (pre : List Event) (d : Nat) :
    settleDelay (pre ++ enablePulse d) = some d := by
  simp [settleDelay, enablePulse, List.getLast?_append]

/-- C7: in both display modes, `LcdScreen_writeByte` ends with an enable pulse
followed by a settle delay that is 2000 us when the byte is clear-display
(0x01) or return-home (0x02) sent as a command and 50 us for every other byte;
so the settle delay after those two commands is strictly greater than the
settle delay after any other byte. -/
theorem LcdScreen_writeByte_settle (nib : Bool) (byte : Nat) (rsInt : Int) :
    (∃ pre, LcdScreen_writeByte nib byte rsInt =
      pre ++ [ Event.gpio_put (gpioPins LCD_EN) 1, Event.sleep_us 1,
               Event.gpio_put (gpioPins LCD_EN) 0,
               Event.sleep_us
                 (if (byte = 0x01 ∨ byte = 0x02) ∧ rsInt = LCD_RS_COMD then 2000 else 50) ]) ∧
    settleDelay (LcdScreen_writeByte nib byte rsInt) =
      some (if (byte = 0x01 ∨ byte = 0x02) ∧ rsInt = LCD_RS_COMD then 2000 else 50) ∧
    (∀ (nib2 : Bool) (byte2 : Nat) (rsInt2 : Int),
      (byte = 0x01 ∨ byte = 0x02) ∧ rsInt = LCD_RS_COMD →
      ¬ ((byte2 = 0x01 ∨ byte2 = 0x02) ∧ rsInt2 = LCD_RS_COMD) →
      ∃ slow fast, settleDelay (LcdScreen_writeByte nib byte rsInt) = some slow ∧
        settleDelay (LcdScreen_writeByte nib2 byte2 rsInt2) = some fast ∧
        fast < slow) := by
  obtain ⟨pre, hpre⟩ := writeByte_ends_with_pulse nib byte rsInt
  refine ⟨⟨pre, hpre⟩, ?_, ?_⟩
  · rw [hpre, settleDelay_append_pulse]
  · intro nib2 byte2 rsInt2 hslow hfast
    obtain ⟨pre2, hpre2⟩ := writeByte_ends_with_pulse nib2 byte2 rsInt2
    refine ⟨2000, 50, ?_, ?_, by norm_num⟩
    · rw [hpre, settleDelay_append_pulse, if_pos hslow]
    · rw [hpre2, settleDelay_append_pulse, if_neg hfast]

/-- C7 at concrete inputs: clear-display as a command against the byte 0x01
sent as data, in nibble mode and in byte mode. -/
theorem LcdScreen_writeByte_settle_witness :
    ∃ slow fast, settleDelay (LcdScreen_writeByte true 0x01 0) = some slow ∧
      settleDelay (LcdScreen_writeByte false 0x01 1) = some fast ∧
      fast < slow :=
  (LcdScreen_writeByte_settle true 0x01 0).2.2 false 0x01 1 (by decide) (by decide)

/-- C8: for every slot `s` with `0 <= s < 8` and every glyph,
`LcdScreen_loadCstmChar` transfers exactly the command byte `0x40 + 8 * s`
and then the eight `bitPattern` bytes of the glyph in index order, each to the
data register; for every `s` outside that range it issues no hardware event. -/
theorem LcdScreen_loadCstmChar_bytes (nib : Bool) (s : Int) (g : customChar_t) :
    (0 ≤ s → s < 8 →
      LcdScreen_loadCstmChar nib s g =
        LcdScreen_writeByte nib (0x40 + 8 * s.toNat) LCD_RS_COMD
        ++ LcdScreen_writeByte nib (g.bitPattern 0) LCD_RS_DATA
        ++ LcdScreen_writeByte nib (g.bitPattern 1) LCD_RS_DATA
        ++ LcdScreen_writeByte nib (g.bitPattern 2) LCD_RS_DATA
        ++ LcdScreen_writeByte nib (g.bitPattern 3) LCD_RS_DATA
        ++ LcdScreen_writeByte nib (g.bitPattern 4) LCD_RS_DATA
        ++ LcdScreen_writeByte nib (g.bitPattern 5) LCD_RS_DATA
        ++ LcdScreen_writeByte nib (g.bitPattern 6) LCD_RS_DATA
        ++ LcdScreen_writeByte nib (g.bitPattern 7) LCD_RS_DATA) ∧
    (s < 0 ∨ 8 ≤ s → hardwareEvents (LcdScreen_loadCstmChar nib s g) = []) := by
  constructor
  · intro h0 h1
    have hloc : ¬ (s < 0 ∨ s ≥ (LCD_CSTM_CHAR_MEM : Nat)) := by
      simp only [LCD_CSTM_CHAR_MEM]; push_cast; omega
    have hcmd : toUChar ((LCD_CSTM_CHAR : Nat) + 8 * s) = 0x40 + 8 * s.toNat := by
      simp only [LCD_CSTM_CHAR]
      rw [toUChar_of_range _ (by push_cast; omega) (by push_cast; omega)]
      push_cast
      omega
    have hfin : List.finRange 8 = [0, 1, 2, 3, 4, 5, 6, 7] := by decide
    simp only [LcdScreen_loadCstmChar, if_neg hloc, hcmd, hfin, List.flatMap_cons,
      List.flatMap_nil, List.append_nil, List.append_assoc]
  · intro h
    have hloc : s < 0 ∨ s ≥ (LCD_CSTM_CHAR_MEM : Nat) := by
      simp only [LCD_CSTM_CHAR_MEM]; push_cast; omega
    simp only [LcdScreen_loadCstmChar, if_pos hloc]
    rfl

/-- C8 at concrete inputs: slot 3 (command 0x58) and the invalid slot 8. -/
theorem LcdScreen_loadCstmChar_bytes_witness :
    LcdScreen_loadCstmChar false 3 { bitPattern := fun i => (i : Nat) + 1 } =
        LcdScreen_writeByte false 0x58 LCD_RS_COMD
        ++ LcdScreen_writeByte false 1 LCD_RS_DATA
        ++ LcdScreen_writeByte false 2 LCD_RS_DATA
        ++ LcdScreen_writeByte false 3 LCD_RS_DATA
        ++ LcdScreen_writeByte false 4 LCD_RS_DATA
        ++ LcdScreen_writeByte false 5 LCD_RS_DATA
        ++ LcdScreen_writeByte false 6 LCD_RS_DATA
        ++ LcdScreen_writeByte false 7 LCD_RS_DATA
        ++ LcdScreen_writeByte false 8 LCD_RS_DATA ∧
    hardwareEvents (LcdScreen_loadCstmChar false 8 { bitPattern := fun i => (i : Nat) + 1 }) = [] :=
  ⟨(LcdScreen_loadCstmChar_bytes false 3 { bitPattern := fun i => (i : Nat) + 1 }).1
      (by decide) (by decide),
   (LcdScreen_loadCstmChar_bytes false 8 { bitPattern := fun i => (i : Nat) + 1 }).2
      (Or.inr (by decide))⟩

/-! ## Sample decode and device identity -/

/-- Two bytes joined by shift and or are the little-endian 16-bit value. -/
theorem shift_or_eq_add (lo hi : Nat) (hlo : lo < 256) : (hi <<< 8) ||| lo = lo + 256 * hi := by
  have h : lo < 2 ^ 8 := by simpa using hlo
  rw [Nat.shiftLeft_eq, Nat.mul_comm hi, ← Nat.mul_add_lt_is_or h hi]
  norm_num
  omega

/-- On a 16-bit value the conversion to `int16_t` is the two's-complement
reading. -/
theorem toInt16_eq_s16 (v : Nat) (hv : v < 65536) : toInt16 v = s16 v := by
  unfold toInt16 s16
  rw [Nat.mod_eq_of_lt hv]

/-- The header of the burst read of the data registers. -/
theorem datax0_header : (0x80 ||| ((if (6 : Nat) = 1 then 0 else 1) <<< 6) ||| REG_DATAX0) % 256 = 0xF2 := by
  decide

/-- C9: for every 6-byte burst `[b0, b1, b2, b3, b4, b5]` that the read of the
data registers returns, `Accel_poll` stores `x = s16 (b0 + 256 * b1)`,
`y = s16 (b2 + 256 * b3)`, `z = s16 (b4 + 256 * b5)`, where `s16` is the
two's-complement reading of a 16-bit value. -/
theorem Accel_poll_decode (bus : SpiBus) (hist : List Event) (data : List Nat)
    (b0 b1 b2 b3 b4 b5 : Nat)
    (hreply : (bus (hist ++ [Event.gpio_put cs_pin 0, Event.spi_write_blocking [0xF2]]) 6).bytes
      = [b0, b1, b2, b3, b4, b5])
    (h0 : b0 < 256) (h1 : b1 < 256) (h2 : b2 < 256) (h3 : b3 < 256) (h4 : b4 < 256)
    (h5 : b5 < 256) :
    (Accel_poll bus hist data).trace =
      [ Event.gpio_put cs_pin 0, Event.spi_write_blocking [0xF2],
        Event.spi_read_blocking 0 6, Event.gpio_put cs_pin 1 ] ∧
    (Accel_poll bus hist data).acc_x = s16 (b0 + 256 * b1) ∧
    (Accel_poll bus hist data).acc_y = s16 (b2 + 256 * b3) ∧
    (Accel_poll bus hist data).acc_z = s16 (b4 + 256 * b5) := by
  have hbuf : (reg_read bus hist cs_pin REG_DATAX0 data 6).buf
      = [b0, b1, b2, b3, b4, b5] ++ data.drop 6 := by
    rw [reg_read_unfold bus hist cs_pin REG_DATAX0 data 6 (by norm_num)]
    simp only [datax0_header, hreply, storeBytes]
    simp [Nat.mod_eq_of_lt, h0, h1, h2, h3, h4, h5]
  have htr : (reg_read bus hist cs_pin REG_DATAX0 data 6).trace =
      [ Event.gpio_put cs_pin 0, Event.spi_write_blocking [0xF2],
        Event.spi_read_blocking 0 6, Event.gpio_put cs_pin 1 ] := by
    rw [reg_read_unfold bus hist cs_pin REG_DATAX0 data 6 (by norm_num)]
    simp only [datax0_header]
  refine ⟨?_, ?_, ?_, ?_⟩
  · simp only [Accel_poll, htr]
  · simp only [Accel_poll, hbuf]
    simp only [List.getD_cons_zero, List.getD_cons_succ, List.cons_append]
    rw [shift_or_eq_add b0 b1 h0, toInt16_eq_s16 _ (by omega)]
  · simp only [Accel_poll, hbuf]
    simp only [List.getD_cons_zero, List.getD_cons_succ, List.cons_append]
    rw [shift_or_eq_add b2 b3 h2, toInt16_eq_s16 _ (by omega)]
  · simp only [Accel_poll, hbuf]
    simp only [List.getD_cons_zero, List.getD_cons_succ, List.cons_append]
    rw [shift_or_eq_add b4 b5 h4, toInt16_eq_s16 _ (by omega)]

/-- C9 at concrete inputs: the burst `[0x10, 0x00, 0x20, 0x00, 0x30, 0x00]`
decodes to `(16, 32, 48)`, and the burst `[0x00, 0x80, 0xFF, 0xFF, 0xFF, 0x7F]`
to `(-32768, -1, 32767)`. -/
theorem Accel_poll_decode_witness :
    ((Accel_poll (fun _ _ => { bytes := [0x10, 0x00, 0x20, 0x00, 0x30, 0x00], ret := 6 }) []
        [0, 0, 0, 0, 0, 0]).acc_x = 16 ∧
     (Accel_poll (fun _ _ => { bytes := [0x10, 0x00, 0x20, 0x00, 0x30, 0x00], ret := 6 }) []
        [0, 0, 0, 0, 0, 0]).acc_y = 32 ∧
     (Accel_poll (fun _ _ => { bytes := [0x10, 0x00, 0x20, 0x00, 0x30, 0x00], ret := 6 }) []
        [0, 0, 0, 0, 0, 0]).acc_z = 48) ∧
    ((Accel_poll (fun _ _ => { bytes := [0x00, 0x80, 0xFF, 0xFF, 0xFF, 0x7F], ret := 6 }) []
        [0, 0, 0, 0, 0, 0]).acc_x = -32768 ∧
     (Accel_poll (fun _ _ => { bytes := [0x00, 0x80, 0xFF, 0xFF, 0xFF, 0x7F], ret := 6 }) []
        [0, 0, 0, 0, 0, 0]).acc_y = -1 ∧
     (Accel_poll (fun _ _ => { bytes := [0x00, 0x80, 0xFF, 0xFF, 0xFF, 0x7F], ret := 6 }) []
        [0, 0, 0, 0, 0, 0]).acc_z = 32767) := by
  have a := Accel_poll_decode
    (fun _ _ => { bytes := [0x10, 0x00, 0x20, 0x00, 0x30, 0x00], ret := 6 }) []
    [0, 0, 0, 0, 0, 0] 0x10 0x00 0x20 0x00 0x30 0x00 rfl
    (by decide) (by decide) (by decide) (by decide) (by decide) (by decide)
  have b := Accel_poll_decode
    (fun _ _ => { bytes := [0x00, 0x80, 0xFF, 0xFF, 0xFF, 0x7F], ret := 6 }) []
    [0, 0, 0, 0, 0, 0] 0x00 0x80 0xFF 0xFF 0xFF 0x7F rfl
    (by decide) (by decide) (by decide) (by decide) (by decide) (by decide)
  refine ⟨⟨?_, ?_, ?_⟩, ⟨?_, ?_, ?_⟩⟩
  · rw [a.2.1]; decide
  · rw [a.2.2.1]; decide
  · rw [a.2.2.2]; decide
  · rw [b.2.1]; decide
  · rw [b.2.2.1]; decide
  · rw [b.2.2.2]; decide

/-- The trace of a one-byte read of a register with a 6-bit address. -/
theorem reg_read_one_trace (bus : SpiBus) (hist : List Event) (reg : Nat) (buf : List Nat)
    (hreg : reg < 64) :
    (reg_read bus hist cs_pin reg buf 1).trace = readTransaction cs_pin (0x80 ||| reg) 1 := by
  have hlt := header_lt_256 0 reg (by norm_num) (by omega)
  rw [reg_read_unfold bus hist cs_pin reg buf 1 (le_refl 1)]
  simp only [if_true, Nat.zero_shiftLeft, Nat.or_zero, readTransaction] at hlt ⊢
  rw [Nat.mod_eq_of_lt hlt]

/-- C10: in `Accel_setup`, if the byte left in `data[0]` by the identity read
of register 0x00 is not 0xE5, the function never returns: it prints the error
and spins, having issued only the initialisation calls and the two reads of
register 0x00, so no bus write other than the two identity headers and in
particular no write to the power-control register; if the byte is 0xE5 the
function goes on with the read of the power-control register and returns. The
byte compared is the byte the bus delivered to the identity read. -/
theorem Accel_setup_identity_check (bus : SpiBus) (data : List Nat) :
    (identityByte bus data ≠ 0xE5 →
      Accel_setup bus data = Outcome.halted
        (Accel_setup_init ++ readTransaction cs_pin 0x80 1 ++ readTransaction cs_pin 0x80 1
          ++ [Event.printf ERR_NO_COMM []]) ∧
      (∀ frame, Event.spi_write_blocking frame ∈ (Accel_setup bus data).trace →
        frame = [0x80]) ∧
      (∀ v, Event.spi_write_blocking [REG_POWER_CTL, v] ∉ (Accel_setup bus data).trace)) ∧
    (identityByte bus data = 0xE5 →
      ∃ rest, Accel_setup bus data = Outcome.returned
        (Accel_setup_init ++ readTransaction cs_pin 0x80 1 ++ readTransaction cs_pin 0x80 1
          ++ readTransaction cs_pin (0x80 ||| REG_POWER_CTL) 1 ++ rest)) ∧
    (∀ b, (bus identityReadHist 1).bytes.head? = some b → identityByte bus data = b % 256) := by
  have t1 : ∀ hist buf, (reg_read bus hist cs_pin REG_DEVID buf 1).trace
      = readTransaction cs_pin 0x80 1 := by
    intro hist buf
    exact reg_read_one_trace bus hist REG_DEVID buf (by decide)
  have t3 : ∀ hist buf, (reg_read bus hist cs_pin REG_POWER_CTL buf 1).trace
      = readTransaction cs_pin (0x80 ||| REG_POWER_CTL) 1 := by
    intro hist buf
    exact reg_read_one_trace bus hist REG_POWER_CTL buf (by decide)
  have hhalt : identityByte bus data ≠ 0xE5 →
      Accel_setup bus data = Outcome.halted
        (Accel_setup_init ++ readTransaction cs_pin 0x80 1 ++ readTransaction cs_pin 0x80 1
          ++ [Event.printf ERR_NO_COMM []]) := by
    intro h
    have h' : (reg_read bus (Accel_setup_init ++ readTransaction cs_pin 0x80 1) cs_pin REG_DEVID
        (reg_read bus Accel_setup_init cs_pin REG_DEVID data 1).buf 1).buf.headD 0 ≠ DEVID := by
      simpa only [identityByte, t1, DEVID] using h
    simp only [Accel_setup, t1, if_pos h']
  refine ⟨fun h => ⟨hhalt h, ?_, ?_⟩, fun h => ?_, fun b hb => ?_⟩
  · intro frame hmem
    rw [hhalt h] at hmem
    simp [Outcome.trace, Accel_setup_init, readTransaction] at hmem
    exact hmem
  · intro v hmem
    rw [hhalt h] at hmem
    simp [Outcome.trace, Accel_setup_init, readTransaction] at hmem
  · have h' : ¬ (reg_read bus (Accel_setup_init ++ readTransaction cs_pin 0x80 1) cs_pin REG_DEVID
        (reg_read bus Accel_setup_init cs_pin REG_DEVID data 1).buf 1).buf.headD 0 ≠ DEVID := by
      simpa only [identityByte, t1, DEVID, not_not] using h
    simp only [Accel_setup, t1, t3, if_neg h', List.append_assoc]
    exact ⟨_, rfl⟩
  · simp only [identityByte, t1]
    rw [reg_read_unfold bus _ cs_pin REG_DEVID _ 1 (le_refl 1)]
    have hh : (0x80 ||| ((if True then 0 else 1) <<< 6) ||| REG_DEVID) % 256 = 0x80 := by
      decide
    simp only [hh]
    have hist : Accel_setup_init ++ readTransaction cs_pin 0x80 1
        ++ [Event.gpio_put cs_pin 0, Event.spi_write_blocking [0x80]] = identityReadHist := rfl
    rw [hist]
    cases hbs : (bus identityReadHist 1).bytes with
    | nil => rw [hbs] at hb; cases hb
    | cons x xs =>
      rw [hbs] at hb
      simp only [List.head?_cons, Option.some.injEq] at hb
      subst hb
      simp [storeBytes]

/-- C10 at concrete inputs: a device that answers 0x00 to every read, and a
device that answers 0xE5. -/
theorem Accel_setup_identity_check_witness :
    Accel_setup (fun _ _ => { bytes := [0x00], ret := 1 }) [0, 0, 0, 0, 0, 0]
      = Outcome.halted
        (Accel_setup_init ++ readTransaction cs_pin 0x80 1 ++ readTransaction cs_pin 0x80 1
          ++ [Event.printf ERR_NO_COMM []]) ∧
    (∃ rest, Accel_setup (fun _ _ => { bytes := [0xE5], ret := 1 }) [0, 0, 0, 0, 0, 0]
      = Outcome.returned
        (Accel_setup_init ++ readTransaction cs_pin 0x80 1 ++ readTransaction cs_pin 0x80 1
          ++ readTransaction cs_pin (0x80 ||| REG_POWER_CTL) 1 ++ rest)) :=
  ⟨((Accel_setup_identity_check (fun _ _ => { bytes := [0x00], ret := 1 })
      [0, 0, 0, 0, 0, 0]).1 (by decide)).1,
   (Accel_setup_identity_check (fun _ _ => { bytes := [0xE5], ret := 1 })
      [0, 0, 0, 0, 0, 0]).2.1 (by decide)⟩

/-! ## Display driver: setup, strings, byte mode, cursor commands -/

/-- The byte transfer in nibble mode, call by call. -/
theorem writeByte_nibble_trace (byte : Nat) (rsInt : Int) :
    LcdScreen_writeByte true byte rsInt =
      [Event.gpio_put (gpioPins LCD_RS) rsInt]
      ++ nibbleLines ((byte &&& 0xF0) >>> 4) ++ enablePulse 1
      ++ nibbleLines (byte &&& 0x0F)
      ++ enablePulse (if (byte = 0x01 ∨ byte = 0x02) ∧ rsInt = LCD_RS_COMD then 2000 else 50) := by
  simp only [LcdScreen_writeByte, if_true, writeNibble_eq, pulseEnAndSleepUs, enablePulse,
    LCD_EN_PULSE_DELAY_US, LCD_DISP_CLEAR, LCD_RTN_HOME, LCD_RTN_HOME_DELAY_US,
    LCD_WRITE_DELAY_US]
  split <;> simp only [List.append_assoc]

/-- The byte transfer in byte mode, call by call. -/
theorem writeByte_byte_trace (byte : Nat) (rsInt : Int) :
    LcdScreen_writeByte false byte rsInt =
      [Event.gpio_put (gpioPins LCD_RS) rsInt]
      ++ byteLines byte
      ++ enablePulse (if (byte = 0x01 ∨ byte = 0x02) ∧ rsInt = LCD_RS_COMD then 2000 else 50) := by
  have hr : List.range 8 = [0, 1, 2, 3, 4, 5, 6, 7] := by decide
  have hl : (List.range 8).map (fun i =>
      Event.gpio_put (gpioPins i) (((byte >>> i) &&& 0x01 : Nat) : Int)) = byteLines byte := by
    simp only [hr, List.map, shift_and_one, byteLines, LCD_D0, LCD_D1, LCD_D2, LCD_D3, LCD_D4,
      LCD_D5, LCD_D6, LCD_D7]
    norm_num
  simp only [LcdScreen_writeByte, Bool.false_eq_true, if_false, hl, pulseEnAndSleepUs,
    enablePulse, LCD_EN_PULSE_DELAY_US, LCD_DISP_CLEAR, LCD_RTN_HOME, LCD_RTN_HOME_DELAY_US,
    LCD_WRITE_DELAY_US]
  split <;> rfl

/-- The pins written by a byte transfer, in order. -/
theorem linesWritten_writeByte (nib : Bool) (byte : Nat) (rsInt : Int) :
    linesWritten (LcdScreen_writeByte nib byte rsInt) =
      if nib then [17, 21, 20, 19, 18, 16, 16, 21, 20, 19, 18, 16, 16]
      else [17, 0, 1, 2, 3, 21, 20, 19, 18, 16, 16] := by
  cases nib
  · rw [writeByte_byte_trace]; rfl
  · rw [writeByte_nibble_trace]; rfl

/-- The levels written to one line by two traces in sequence. -/
theorem lineWrites_append (pin : Nat) (a b : List Event) :
    lineWrites pin (a ++ b) = lineWrites pin a ++ lineWrites pin b := by
  induction a with
  | nil => rfl
  | cons e rest ih =>
    cases e with
    | gpio_put p v =>
      simp only [List.cons_append, lineWrites]
      split <;> simp [ih]
    | _ => simpa only [List.cons_append, lineWrites] using ih

/-- A byte transfer writes register-select once, with the target. -/
theorem lineWrites_rs_writeByte (nib : Bool) (byte : Nat) (rsInt : Int) :
    lineWrites (gpioPins LCD_RS) (LcdScreen_writeByte nib byte rsInt) = [rsInt] := by
  cases nib
  · rw [writeByte_byte_trace]; rfl
  · rw [writeByte_nibble_trace]; rfl

/-- C11: `LcdScreen_setup` stores the mode flag, drives all ten lines low as
outputs, and then sends exactly the command bytes `[0x02, 0x28, 0x01, 0x0F,
0x06]` in nibble mode and `[0x38, 0x01, 0x0F, 0x06]` otherwise, every one to
the command register (register-select is never written high); in both modes
the last three are clear-display, cursor/display-on and auto-increment-right,
in that order. -/
theorem LcdScreen_setup_commands :
    LcdScreen_setup true =
      (true,
        ([0, 1, 2, 3, 21, 20, 19, 18, 17, 16].flatMap fun p =>
          [Event.gpio_init p, Event.gpio_set_dir p true, Event.gpio_put p 0])
        ++ [0x02, 0x28, 0x01, 0x0F, 0x06].flatMap fun b =>
            LcdScreen_writeByte true b LCD_RS_COMD) ∧
    LcdScreen_setup false =
      (false,
        ([0, 1, 2, 3, 21, 20, 19, 18, 17, 16].flatMap fun p =>
          [Event.gpio_init p, Event.gpio_set_dir p true, Event.gpio_put p 0])
        ++ [0x38, 0x01, 0x0F, 0x06].flatMap fun b =>
            LcdScreen_writeByte false b LCD_RS_COMD) ∧
    (∀ nib : Bool, ∃ first,
      (LcdScreen_setup nib).2 = first
        ++ LcdScreen_writeByte nib 0x01 LCD_RS_COMD
        ++ LcdScreen_writeByte nib 0x0F LCD_RS_COMD
        ++ LcdScreen_writeByte nib 0x06 LCD_RS_COMD) ∧
    (∀ nib : Bool, ∀ v ∈ lineWrites (gpioPins LCD_RS) (LcdScreen_setup nib).2,
      v = LCD_RS_COMD) := by
  refine ⟨by decide, by decide, ?_, ?_⟩
  · intro nib
    exact ⟨_, rfl⟩
  · intro nib
    cases nib <;> decide

/-- C12: `LcdScreen_writeString` performs exactly 20 byte transfers, the i-th
carrying `message[i]` as an unsigned 8-bit value for `i = 0 .. 19` in order,
every one to the data register: register-select is written 20 times, always
with the data level, so no command byte is sent; a zero byte in the message
does not end the loop. -/
theorem LcdScreen_writeString_bytes (nib : Bool) (message : Nat → Int) :
    LcdScreen_writeString nib message =
      ([0, 1, 2, 3, 4, 5, 6, 7, 8, 9, 10, 11, 12, 13, 14, 15, 16, 17, 18, 19].flatMap fun i =>
        LcdScreen_writeByte nib (message i % 256).toNat LCD_RS_DATA) ∧
    lineWrites (gpioPins LCD_RS) (LcdScreen_writeString nib message)
      = List.replicate 20 LCD_RS_DATA ∧
    (linesWritten (LcdScreen_writeString nib message)).length = (if nib then 13 else 11) * 20 := by
  have hr : List.range LCD_COL
      = [0, 1, 2, 3, 4, 5, 6, 7, 8, 9, 10, 11, 12, 13, 14, 15, 16, 17, 18, 19] := by decide
  have h1 : LcdScreen_writeString nib message =
      ([0, 1, 2, 3, 4, 5, 6, 7, 8, 9, 10, 11, 12, 13, 14, 15, 16, 17, 18, 19].flatMap fun i =>
        LcdScreen_writeByte nib (message i % 256).toNat LCD_RS_DATA) := by
    simp only [LcdScreen_writeString, hr, toUChar]
  refine ⟨h1, ?_, ?_⟩
  · rw [h1]
    simp only [List.flatMap_cons, List.flatMap_nil, List.append_nil, lineWrites_append,
      lineWrites_rs_writeByte]
    rfl
  · rw [h1]
    have la : ∀ a b : List Event, linesWritten (a ++ b) = linesWritten a ++ linesWritten b := by
      intro a b
      induction a with
      | nil => rfl
      | cons e rest ih => cases e <;> simp [linesWritten, ih]
    simp only [List.flatMap_cons, List.flatMap_nil, List.append_nil, la,
      linesWritten_writeByte, List.length_append]
    cases nib <;> rfl

/-- C12 at a concrete input: a message of twenty zero bytes is written in
full, as twenty data transfers of the byte 0. -/
theorem LcdScreen_writeString_bytes_witness :
    LcdScreen_writeString true (fun _ => 0) =
      (List.replicate 20 (LcdScreen_writeByte true 0 LCD_RS_DATA)).flatten ∧
    lineWrites (gpioPins LCD_RS) (LcdScreen_writeString true (fun _ => 0))
      = List.replicate 20 1 :=
  ⟨(LcdScreen_writeString_bytes true (fun _ => 0)).1.trans rfl,
   (LcdScreen_writeString_bytes true (fun _ => 0)).2.1⟩

/-- C14: in byte mode, for every byte and target, `LcdScreen_writeByte` writes
register-select with the target, then bit `i` of the byte to data line `i` for
`i = 0 .. 7`, each line once, then issues exactly one enable pulse (enable
high, pulse-width wait, enable low) followed by the settle delay; the eight
line writes carry the byte. -/
theorem LcdScreen_writeByte_byte_mode (byte : Nat) (rsInt : Int) :
    LcdScreen_writeByte false byte rsInt =
      [ Event.gpio_put (gpioPins LCD_RS) rsInt,
        Event.gpio_put (gpioPins 0) ((byte / 2 ^ 0 % 2 : Nat) : Int),
        Event.gpio_put (gpioPins 1) ((byte / 2 ^ 1 % 2 : Nat) : Int),
        Event.gpio_put (gpioPins 2) ((byte / 2 ^ 2 % 2 : Nat) : Int),
        Event.gpio_put (gpioPins 3) ((byte / 2 ^ 3 % 2 : Nat) : Int),
        Event.gpio_put (gpioPins 4) ((byte / 2 ^ 4 % 2 : Nat) : Int),
        Event.gpio_put (gpioPins 5) ((byte / 2 ^ 5 % 2 : Nat) : Int),
        Event.gpio_put (gpioPins 6) ((byte / 2 ^ 6 % 2 : Nat) : Int),
        Event.gpio_put (gpioPins 7) ((byte / 2 ^ 7 % 2 : Nat) : Int),
        Event.gpio_put (gpioPins LCD_EN) 1,
        Event.sleep_us LCD_EN_PULSE_DELAY_US,
        Event.gpio_put (gpioPins LCD_EN) 0,
        Event.sleep_us
          (if (byte = 0x01 ∨ byte = 0x02) ∧ rsInt = LCD_RS_COMD then 2000 else 50) ] ∧
    linesWritten (LcdScreen_writeByte false byte rsInt)
      = [17, 0, 1, 2, 3, 21, 20, 19, 18, 16, 16] ∧
    lineWrites (gpioPins LCD_EN) (LcdScreen_writeByte false byte rsInt) = [1, 0] ∧
    (byte < 256 → linesValue (byteLines byte) = byte) := by
  refine ⟨?_, ?_, ?_, ?_⟩
  · rw [writeByte_byte_trace]
    simp only [byteLines, enablePulse, LCD_D0, LCD_D1, LCD_D2, LCD_D3, LCD_D4, LCD_D5, LCD_D6,
      LCD_D7, LCD_EN_PULSE_DELAY_US]
    norm_num
  · rw [linesWritten_writeByte]; rfl
  · rw [writeByte_byte_trace]; rfl
  · intro hb
    simp only [byteLines, linesValue]
    omega

/-- C14 at a concrete input: the byte 0xA5 sent as data in byte mode. -/
theorem LcdScreen_writeByte_byte_mode_witness :
    LcdScreen_writeByte false 0xA5 1 =
      [ Event.gpio_put 17 1,
        Event.gpio_put 0 1, Event.gpio_put 1 0, Event.gpio_put 2 1, Event.gpio_put 3 0,
        Event.gpio_put 21 0, Event.gpio_put 20 1, Event.gpio_put 19 0, Event.gpio_put 18 1,
        Event.gpio_put 16 1, Event.sleep_us 1, Event.gpio_put 16 0, Event.sleep_us 50 ] ∧
    linesValue (byteLines 0xA5) = 0xA5 :=
  ⟨(LcdScreen_writeByte_byte_mode 0xA5 1).1.trans (by decide),
   (LcdScreen_writeByte_byte_mode 0xA5 1).2.2.2 (by decide)⟩

/-- C16: `LcdScreen_showCursor` sends exactly one command byte, 0b1111, and
`LcdScreen_hideCursor` exactly one command byte, 0b1100, each to the command
register and with the short settle delay; both bytes have bit 3 (the
display-control opcode) and bit 2 (display on) set. -/
theorem LcdScreen_cursor_commands (nib : Bool) :
    LcdScreen_showCursor nib = LcdScreen_writeByte nib 0b1111 LCD_RS_COMD ∧
    LcdScreen_hideCursor nib = LcdScreen_writeByte nib 0b1100 LCD_RS_COMD ∧
    lineWrites (gpioPins LCD_RS) (LcdScreen_showCursor nib) = [0] ∧
    lineWrites (gpioPins LCD_RS) (LcdScreen_hideCursor nib) = [0] ∧
    settleDelay (LcdScreen_showCursor nib) = some 50 ∧
    settleDelay (LcdScreen_hideCursor nib) = some 50 ∧
    Nat.testBit 0b1111 3 = true ∧ Nat.testBit 0b1111 2 = true ∧
    Nat.testBit 0b1100 3 = true ∧ Nat.testBit 0b1100 2 = true ∧
    Nat.testBit LCD_DISP_C_ON 1 = true ∧ Nat.testBit LCD_DISP_C_OFF 1 = false := by
  cases nib <;> decide

/-! ## Device activation -/

/-- One received byte, or none, stored at the front of a buffer: the first
buffer entry afterwards. -/
theorem storeBytes_one_head (buf bytes : List Nat) :
    (storeBytes buf 1 bytes).headD 0 =
      match bytes.head? with
      | some b => b % 256
      | none => buf.headD 0 := by
  cases bytes with
  | nil => simp [storeBytes]
  | cons x xs => simp [storeBytes]

/-- The buffer after a one-byte read. -/
theorem reg_read_one_buf (bus : SpiBus) (hist : List Event) (reg : Nat) (buf : List Nat)
    (hreg : reg < 64) :
    (reg_read bus hist cs_pin reg buf 1).buf = storeBytes buf 1
      (bus (hist ++ [Event.gpio_put cs_pin 0, Event.spi_write_blocking [0x80 ||| reg]]) 1).bytes := by
  have hlt := header_lt_256 0 reg (by norm_num) (by omega)
  rw [reg_read_unfold bus hist cs_pin reg buf 1 (le_refl 1)]
  simp only [if_true, Nat.zero_shiftLeft, Nat.or_zero] at hlt ⊢
  rw [Nat.mod_eq_of_lt hlt]

/-- Setting bit 3 of a value leaves its other bits as they were. -/
theorem or_8_testBit (v i : Nat) :
    (v ||| 0x08).testBit i = if i = 3 then true else v.testBit i := by
  have h8 : (0x08 : Nat) = 2 ^ 3 := by norm_num
  rw [Nat.testBit_or, h8, Nat.testBit_two_pow]
  by_cases h : i = 3
  · subst h; simp
  · have h' : ¬ 3 = i := fun e => h e.symm
    simp [h, h']

/-- C13: when the identity check passes, for every value `v` that the read of
the power-control register 0x2D leaves in `data[0]`, `Accel_setup` issues
exactly one register write, the frame `[0x2D, v | 0x08]`, after that read and
before the confirming re-read; `v | 0x08` has bit 3 set and the other bits of
`v` unchanged; `v` is the byte the bus delivered to that read. -/
theorem Accel_setup_activation (bus : SpiBus) (data : List Nat)
    (hid : identityByte bus data = 0xE5) :
    (∃ v2 : Int, Accel_setup bus data = Outcome.returned
      (Accel_setup_init ++ readTransaction cs_pin 0x80 1 ++ readTransaction cs_pin 0x80 1
        ++ readTransaction cs_pin 0xAD 1
        ++ [Event.printf FMT_HEX [(powerCtlByte bus data : Nat)]]
        ++ [ Event.gpio_put cs_pin 0,
             Event.spi_write_blocking [0x2D, powerCtlByte bus data ||| 0x08],
             Event.gpio_put cs_pin 1 ]
        ++ readTransaction cs_pin 0xAD 1
        ++ [Event.printf FMT_HEX [v2]]
        ++ [Event.sleep_ms 2000])) ∧
    registerWrites (Accel_setup bus data).trace = [(0x2D, powerCtlByte bus data ||| 0x08)] ∧
    (powerCtlByte bus data ||| 0x08).testBit 3 = true ∧
    (∀ i, i ≠ 3 → (powerCtlByte bus data ||| 0x08).testBit i = (powerCtlByte bus data).testBit i) ∧
    powerCtlByte bus data < 256 ∧
    (∀ b, (bus powerCtlReadHist 1).bytes.head? = some b → powerCtlByte bus data = b % 256) := by
  have t1 : ∀ hist buf, (reg_read bus hist cs_pin REG_DEVID buf 1).trace
      = readTransaction cs_pin 0x80 1 := by
    intro hist buf
    exact reg_read_one_trace bus hist REG_DEVID buf (by decide)
  have t3 : ∀ hist buf, (reg_read bus hist cs_pin REG_POWER_CTL buf 1).trace
      = readTransaction cs_pin 0xAD 1 := by
    intro hist buf
    exact reg_read_one_trace bus hist REG_POWER_CTL buf (by decide)
  have hid' : (reg_read bus (Accel_setup_init ++ readTransaction cs_pin 0x80 1) cs_pin REG_DEVID
      (reg_read bus Accel_setup_init cs_pin REG_DEVID data 1).buf 1).buf.headD 0 = 0xE5 := by
    simpa only [identityByte, t1] using hid
  have hneg : ¬ (reg_read bus (Accel_setup_init ++ readTransaction cs_pin 0x80 1) cs_pin REG_DEVID
      (reg_read bus Accel_setup_init cs_pin REG_DEVID data 1).buf 1).buf.headD 0 ≠ DEVID := by
    rw [hid']; decide
  -- the byte in data[0] after the power-control read
  have hpc : powerCtlByte bus data =
      match (bus powerCtlReadHist 1).bytes.head? with
      | some b => b % 256
      | none => 0xE5 := by
    simp only [powerCtlByte, t1]
    rw [reg_read_one_buf bus _ REG_POWER_CTL _ (by decide), storeBytes_one_head, hid']
    rfl
  have hlt : powerCtlByte bus data < 256 := by
    rw [hpc]
    split
    · exact Nat.mod_lt _ (by norm_num)
    · norm_num
  have hor : (powerCtlByte bus data ||| 0x08) % 256 = powerCtlByte bus data ||| 0x08 := by
    apply Nat.mod_eq_of_lt
    have h1 : powerCtlByte bus data < 2 ^ 8 := by simpa using hlt
    have h2 : (0x08 : Nat) < 2 ^ 8 := by norm_num
    simpa using Nat.or_lt_two_pow h1 h2
  have hv : (reg_read bus
      (Accel_setup_init ++ readTransaction cs_pin 0x80 1 ++ readTransaction cs_pin 0x80 1) cs_pin
      REG_POWER_CTL
      (reg_read bus (Accel_setup_init ++ readTransaction cs_pin 0x80 1) cs_pin REG_DEVID
        (reg_read bus Accel_setup_init cs_pin REG_DEVID data 1).buf 1).buf 1).buf.headD 0
      = powerCtlByte bus data := by
    simp only [powerCtlByte, t1]
  have hrun : ∃ v2 : Int, Accel_setup bus data = Outcome.returned
      (Accel_setup_init ++ readTransaction cs_pin 0x80 1 ++ readTransaction cs_pin 0x80 1
        ++ readTransaction cs_pin 0xAD 1
        ++ [Event.printf FMT_HEX [(powerCtlByte bus data : Nat)]]
        ++ [ Event.gpio_put cs_pin 0,
             Event.spi_write_blocking [0x2D, powerCtlByte bus data ||| 0x08],
             Event.gpio_put cs_pin 1 ]
        ++ readTransaction cs_pin 0xAD 1
        ++ [Event.printf FMT_HEX [v2]]
        ++ [Event.sleep_ms 2000]) := by
    have h13 : (1 : Nat) <<< 3 = 0x08 := by decide
    have hreg : (0x00 ||| REG_POWER_CTL) % 256 = 0x2D := by decide
    simp only [Accel_setup, t1, t3, if_neg hneg, hv, reg_write, h13, hor, hreg]
    exact ⟨_, rfl⟩
  refine ⟨hrun, ?_, ?_, ?_, hlt, ?_⟩
  · obtain ⟨v2, h⟩ := hrun
    rw [h]
    rfl
  · rw [or_8_testBit]; rfl
  · intro i hi
    rw [or_8_testBit, if_neg hi]
  · intro b hb
    rw [hpc, hb]

/-- C13 at a concrete input: a device that answers 0xE5 to the two reads of
register 0x00 and 0x00 afterwards, so that the power-control byte read is 0x00
and the single register write is `[0x2D, 0x08]`. -/
theorem Accel_setup_activation_witness :
    registerWrites
      (Accel_setup
        (fun hist _ => if hist.length ≤ 15 then { bytes := [0xE5], ret := 1 }
          else { bytes := [0x00], ret := 1 })
        [0, 0, 0, 0, 0, 0]).trace
      = [(0x2D, 0x08)] := by
  have h := (Accel_setup_activation
    (fun hist _ => if hist.length ≤ 15 then { bytes := [0xE5], ret := 1 }
      else { bytes := [0x00], ret := 1 })
    [0, 0, 0, 0, 0, 0] (by decide)).2.1
  rw [h]
  decide

/-! ## Cursor addresses and the nibble-mode frame -/

/-- On a valid position `LcdScreen_moveCursor` is one command transfer of the
row base plus the column, and the conversion to `unsigned char` does not
change that value. -/
theorem moveCursor_valid (nib : Bool) (row col : Int)
    (hrow : row = 0 ∨ row = 1 ∨ row = 2 ∨ row = 3) (h0 : 0 ≤ col) (h1 : col < 20) :
    LcdScreen_moveCursor nib row col
      = LcdScreen_writeByte nib (rowBase row + col.toNat) LCD_RS_COMD ∧
    toUChar ((rowBase row : Int) + col) = rowBase row + col.toNat := by
  have hcol : ¬ (col < 0 ∨ col ≥ (LCD_COL : Nat)) := by
    simp only [LCD_COL]; push_cast; omega
  have conv : ∀ base : Nat, base + 20 ≤ 256 →
      toUChar ((base : Int) + col) = base + col.toNat := by
    intro base hb
    rw [toUChar_of_range _ (by omega) (by omega)]
    omega
  rcases hrow with rfl | rfl | rfl | rfl
  · refine ⟨?_, conv 0x80 (by norm_num)⟩
    simp only [LcdScreen_moveCursor, if_neg hcol, LcdScreen_command, LCD_ROW0]
    rw [conv 0x80 (by norm_num)]; rfl
  · refine ⟨?_, conv 0xC0 (by norm_num)⟩
    simp only [LcdScreen_moveCursor, if_neg hcol, LcdScreen_command, LCD_ROW1]
    rw [conv 0xC0 (by norm_num)]; rfl
  · refine ⟨?_, conv 0x94 (by norm_num)⟩
    simp only [LcdScreen_moveCursor, if_neg hcol, LcdScreen_command, LCD_ROW2]
    rw [conv 0x94 (by norm_num)]; rfl
  · refine ⟨?_, conv 0xD4 (by norm_num)⟩
    simp only [LcdScreen_moveCursor, if_neg hcol, LcdScreen_command, LCD_ROW3]
    rw [conv 0xD4 (by norm_num)]; rfl

/-- The row bases, one by one. -/
theorem rowBase_values :
    rowBase 0 = 0x80 ∧ rowBase 1 = 0xC0 ∧ rowBase 2 = 0x94 ∧ rowBase 3 = 0xD4 := by
  decide

/-- C17: over all valid positions the command byte `base(row) + col` that
`LcdScreen_moveCursor` sends is injective, lies in `[0x80, 0xE7]`, has bit 7
set, fits in 8 bits (the conversion to `unsigned char` does not wrap), and is
neither 0x01 nor 0x02, so the move takes the short settle delay. -/
theorem LcdScreen_moveCursor_unambiguous (nib : Bool) (row col row2 col2 : Int)
    (hrow : row = 0 ∨ row = 1 ∨ row = 2 ∨ row = 3) (h0 : 0 ≤ col) (h1 : col < 20)
    (hrow2 : row2 = 0 ∨ row2 = 1 ∨ row2 = 2 ∨ row2 = 3) (h02 : 0 ≤ col2) (h12 : col2 < 20) :
    LcdScreen_moveCursor nib row col
      = LcdScreen_writeByte nib (rowBase row + col.toNat) LCD_RS_COMD ∧
    (rowBase row + col.toNat = rowBase row2 + col2.toNat → row = row2 ∧ col = col2) ∧
    0x80 ≤ rowBase row + col.toNat ∧ rowBase row + col.toNat ≤ 0xE7 ∧
    (rowBase row + col.toNat).testBit 7 = true ∧
    toUChar ((rowBase row : Int) + col) = rowBase row + col.toNat ∧
    rowBase row + col.toNat ≠ 0x01 ∧ rowBase row + col.toNat ≠ 0x02 ∧
    settleDelay (LcdScreen_moveCursor nib row col) = some 50 := by
  obtain ⟨hmove, hconv⟩ := moveCursor_valid nib row col hrow h0 h1
  obtain ⟨b0, b1, b2, b3⟩ := rowBase_values
  have hlo : 0x80 ≤ rowBase row + col.toNat := by
    rcases hrow with rfl | rfl | rfl | rfl <;> omega
  have hhi : rowBase row + col.toNat ≤ 0xE7 := by
    rcases hrow with rfl | rfl | rfl | rfl <;> omega
  refine ⟨hmove, ?_, hlo, hhi, ?_, hconv, by omega, by omega, ?_⟩
  · intro heq
    rcases hrow with rfl | rfl | rfl | rfl <;> rcases hrow2 with rfl | rfl | rfl | rfl <;>
      constructor <;> omega
  · rw [Nat.testBit_to_div_mod]
    have h128 : (rowBase row + col.toNat) / 128 % 2 = 1 := by omega
    simpa using h128
  · obtain ⟨pre, hpre⟩ := writeByte_ends_with_pulse nib (rowBase row + col.toNat) LCD_RS_COMD
    have hfast : ¬ ((rowBase row + col.toNat = 0x01 ∨ rowBase row + col.toNat = 0x02)
        ∧ LCD_RS_COMD = LCD_RS_COMD) := by
      intro h
      omega
    rw [hmove, hpre, settleDelay_append_pulse, if_neg hfast]

/-- C17 at concrete inputs: the last column of row 0 and the first column of
row 2 are neighbours in the address space (0x93 and 0x94) and still differ. -/
theorem LcdScreen_moveCursor_unambiguous_witness :
    LcdScreen_moveCursor true 0 19 = LcdScreen_writeByte true 0x93 LCD_RS_COMD ∧
    LcdScreen_moveCursor true 2 0 = LcdScreen_writeByte true 0x94 LCD_RS_COMD ∧
    settleDelay (LcdScreen_moveCursor true 0 19) = some 50 :=
  ⟨(LcdScreen_moveCursor_unambiguous true 0 19 2 0 (by decide) (by decide) (by decide)
      (by decide) (by decide) (by decide)).1,
   (LcdScreen_moveCursor_unambiguous true 2 0 0 19 (by decide) (by decide) (by decide)
      (by decide) (by decide) (by decide)).1,
   (LcdScreen_moveCursor_unambiguous true 0 19 2 0 (by decide) (by decide) (by decide)
      (by decide) (by decide) (by decide)).2.2.2.2.2.2.2.2⟩

/-- C18: in nibble mode, for every byte and target, `LcdScreen_writeByte`
writes only the register-select line, the enable line and the four upper data
lines (indices 4..7 of the line map), never data lines 0..3; it contains
exactly two enable pulses, each of the form enable high, 1 us wait, enable
low; register-select is written first, before any data line; and the last
level written to the enable line is low. -/
theorem LcdScreen_writeByte_nibble_frame (byte : Nat) (rsInt : Int) :
    linesWritten (LcdScreen_writeByte true byte rsInt)
      = [ gpioPins LCD_RS,
          gpioPins 4, gpioPins 5, gpioPins 6, gpioPins 7, gpioPins LCD_EN, gpioPins LCD_EN,
          gpioPins 4, gpioPins 5, gpioPins 6, gpioPins 7, gpioPins LCD_EN, gpioPins LCD_EN ] ∧
    (∀ p ∈ linesWritten (LcdScreen_writeByte true byte rsInt),
      p = gpioPins LCD_RS ∨ p = gpioPins LCD_EN ∨
      p = gpioPins 4 ∨ p = gpioPins 5 ∨ p = gpioPins 6 ∨ p = gpioPins 7) ∧
    (∀ i, i < 4 → gpioPins i ∉ linesWritten (LcdScreen_writeByte true byte rsInt)) ∧
    (∃ hi lo d,
      LcdScreen_writeByte true byte rsInt =
        [Event.gpio_put (gpioPins LCD_RS) rsInt] ++ hi
        ++ [Event.gpio_put (gpioPins LCD_EN) 1, Event.sleep_us 1,
            Event.gpio_put (gpioPins LCD_EN) 0]
        ++ [Event.sleep_us 1] ++ lo
        ++ [Event.gpio_put (gpioPins LCD_EN) 1, Event.sleep_us 1,
            Event.gpio_put (gpioPins LCD_EN) 0]
        ++ [Event.sleep_us d] ∧
      lineWrites (gpioPins LCD_EN) hi = [] ∧ lineWrites (gpioPins LCD_EN) lo = [] ∧
      linesWritten hi = [gpioPins 4, gpioPins 5, gpioPins 6, gpioPins 7] ∧
      linesWritten lo = [gpioPins 4, gpioPins 5, gpioPins 6, gpioPins 7]) ∧
    lineWrites (gpioPins LCD_EN) (LcdScreen_writeByte true byte rsInt) = [1, 0, 1, 0] ∧
    (LcdScreen_writeByte true byte rsInt).head? = some (Event.gpio_put (gpioPins LCD_RS) rsInt) ∧
    (lineWrites (gpioPins LCD_EN) (LcdScreen_writeByte true byte rsInt)).getLast? = some 0 := by
  have hl : linesWritten (LcdScreen_writeByte true byte rsInt)
      = [17, 21, 20, 19, 18, 16, 16, 21, 20, 19, 18, 16, 16] := by
    rw [linesWritten_writeByte]; rfl
  have hen : lineWrites (gpioPins LCD_EN) (LcdScreen_writeByte true byte rsInt) = [1, 0, 1, 0] := by
    rw [writeByte_nibble_trace]; rfl
  refine ⟨?_, ?_, ?_, ?_, hen, ?_, ?_⟩
  · rw [hl]; rfl
  · rw [hl]
    decide
  · intro i hi
    rw [hl]
    interval_cases i <;> decide
  · refine ⟨nibbleLines ((byte &&& 0xF0) >>> 4), nibbleLines (byte &&& 0x0F),
      if (byte = 0x01 ∨ byte = 0x02) ∧ rsInt = LCD_RS_COMD then 2000 else 50, ?_, rfl, rfl,
      rfl, rfl⟩
    rw [writeByte_nibble_trace]
    simp only [enablePulse, List.append_assoc, List.cons_append, List.nil_append]
  · rw [writeByte_nibble_trace]; rfl
  · rw [hen]; rfl

/-- C18 at a concrete input: the byte 0xA5 sent as data in nibble mode never
writes line 0 and leaves the enable line low. -/
theorem LcdScreen_writeByte_nibble_frame_witness :
    gpioPins 0 ∉ linesWritten (LcdScreen_writeByte true 0xA5 1) ∧
    linesWritten (LcdScreen_writeByte true 0xA5 1)
      = [17, 21, 20, 19, 18, 16, 16, 21, 20, 19, 18, 16, 16] ∧
    (lineWrites (gpioPins LCD_EN) (LcdScreen_writeByte true 0xA5 1)).getLast? = some 0 :=
  ⟨(LcdScreen_writeByte_nibble_frame 0xA5 1).2.2.1 0 (by decide),
   (LcdScreen_writeByte_nibble_frame 0xA5 1).1.trans rfl,
   (LcdScreen_writeByte_nibble_frame 0xA5 1).2.2.2.2.2.2⟩

/-! ## Orientation over the real numbers -/

/-- The arctangent of a point on the positive horizontal axis is 0. -/
theorem realAtan2_zero_pos (x : ℝ) (hx : 0 < x) : realAtan2 0 x = 0 := by
  simp [realAtan2, hx]

/-- C15: with `cal_Angle` read over the real numbers, for every `g > 0` the
orientation computed from `(x, y, z) = (0, 0, g)` has
`theta = atan2 (0, sqrt (g * g)) * 180 / pi = 0`,
`alpha = atan2 (0, g) * 180 / pi = 0` and magnitude `r = g`. -/
theorem cal_Angle_level (g : ℝ) (hg : 0 < g) :
    (cal_Angle realMath 0 0 g).theta = realAtan2 0 (Real.sqrt (g * g)) * 180 / Real.pi ∧
    (cal_Angle realMath 0 0 g).theta = 0 ∧
    (cal_Angle realMath 0 0 g).alpha = realAtan2 0 g * 180 / Real.pi ∧
    (cal_Angle realMath 0 0 g).alpha = 0 ∧
    (cal_Angle realMath 0 0 g).r = g := by
  have hs : Real.sqrt (g * g) = g := Real.sqrt_mul_self hg.le
  have ht : (cal_Angle realMath 0 0 g).theta
      = realAtan2 0 (Real.sqrt (g * g)) * 180 / Real.pi := by
    simp only [cal_Angle, realMath, mul_zero, add_zero]
  have ha : (cal_Angle realMath 0 0 g).alpha = realAtan2 0 g * 180 / Real.pi := by
    simp only [cal_Angle, realMath]
  refine ⟨ht, ?_, ha, ?_, ?_⟩
  · rw [ht, hs, realAtan2_zero_pos g hg]; simp
  · rw [ha, realAtan2_zero_pos g hg]; simp
  · simp only [cal_Angle, realMath, mul_zero, zero_add]
    exact hs

/-- C15 at a concrete input: gravity of magnitude 1 on the z axis. -/
theorem cal_Angle_level_witness :
    (cal_Angle realMath 0 0 1).theta = 0 ∧
    (cal_Angle realMath 0 0 1).alpha = 0 ∧
    (cal_Angle realMath 0 0 1).r = 1 :=
  ⟨(cal_Angle_level 1 one_pos).2.1, (cal_Angle_level 1 one_pos).2.2.2.1,
   (cal_Angle_level 1 one_pos).2.2.2.2⟩

end Testbed
